import Mathlib

/-!
Shallow embedding of the spatiocyte lattice-occupancy core (src/src/lib.rs).

The Rust module defines an HCP lattice space: a flat array of voxels, each
holding `Option<SpeciesID>`, and a per-species index (`SpeciesCache`) that is
either a list of `(ParticleID, Coordinate)` pairs (tracking mode) or a bare
occupant count (counting mode).  `move_particle` validates and applies a move
between two voxels.

Modelling choices, all mirroring the source:
- `Coordinate` (a `usize` newtype used only as an index, no arithmetic) and
  `SpeciesID` are embedded as `Nat`.
- `ParticleID(u64, u64)` is embedded as a pair of `Nat`s; the source only
  stores and compares particle ids, so machine-integer width is irrelevant.
- The `voxel_radius: f64` field is a geometric passthrough with no effect on
  occupancy logic (only stored and returned by `get_voxel_radius`); it is not
  part of the occupancy state embedded here.
- Rust `Vec`/boxed slices become `List`s; `slice::get` becomes `List.getElem?`,
  `slice::swap` becomes two `List.set` calls reading both slots first.
- `Vec` indexing `self.species_cache[id.0]` panics when `id.0` is out of
  bounds; `move_particle` therefore returns `Option (Except Error Unit × State)`
  where `none` marks a panicking execution and `some (r, s')` a normal return
  `r` with post-state `s'` (errors in the source return before any mutation,
  which the embedding reflects by pairing them with the entry state).
- `*count -= 1` on a `usize` is embedded as truncated `Nat` subtraction; the
  underflow concern is addressed by the counting-mode safety theorem.
-/

/-- Linear voxel coordinate (Rust: `struct Coordinate(usize)`). -/
abbrev Coordinate := Nat

/-- Dense index into the species cache (Rust: `struct SpeciesID(usize)`). -/
abbrev SpeciesID := Nat

/-- Rust: `struct ParticleID(u64, u64)`; only stored and compared. -/
structure ParticleID where
  hi : Nat
  lo : Nat
deriving DecidableEq

/-- Rust: `struct Species(String)`. -/
structure Species where
  name : String
deriving DecidableEq

/-- Rust: `struct HCPLatticeSize { row, col, layer : usize }`. -/
structure HCPLatticeSize where
  row : Nat
  col : Nat
  layer : Nat
deriving DecidableEq

/-- Rust: `enum Error`. -/
inductive Error where
  | OutOfRange (c : Coordinate)
  | ParticleNotFound (c : Coordinate)
  | InvalidLocation (src dst : Coordinate)
deriving DecidableEq

/-- Rust: `enum TrackingType`. -/
inductive TrackingType where
  | Tracking (cache : List (ParticleID × Coordinate))
  | Count (count : Nat)
deriving DecidableEq

/-- Rust: `struct SpeciesCache { species, location, cache }`. -/
structure SpeciesCache where
  species : Species
  location : Option SpeciesID
  cache : TrackingType
deriving DecidableEq

/-- Rust: `SpeciesCache::remove`: tracking mode drops the first pair whose
coordinate matches; the loop breaks after the first hit. -/
def removeFirst : List (ParticleID × Coordinate) → Coordinate → List (ParticleID × Coordinate)
  | [], _ => []
  | p :: rest, c => if p.2 = c then rest else p :: removeFirst rest c

/-- Rust: `SpeciesCache::move_to`: rewrite the coordinate of the first pair
whose coordinate matches `src`; the loop breaks after the first hit. -/
def moveToFirst : List (ParticleID × Coordinate) → Coordinate → Coordinate → List (ParticleID × Coordinate)
  | [], _, _ => []
  | p :: rest, src, dst => if p.2 = src then (p.1, dst) :: rest else p :: moveToFirst rest src dst

/-- Rust: `SpeciesCache::remove(coordinate)`. Counting mode is `*count -= 1`
(a `usize` decrement, embedded as truncated subtraction). -/
def SpeciesCache.remove (sc : SpeciesCache) (c : Coordinate) : SpeciesCache :=
  match sc.cache with
  | .Tracking l => { sc with cache := .Tracking (removeFirst l c) }
  | .Count n => { sc with cache := .Count (n - 1) }

/-- Rust: `SpeciesCache::add(coordinate)`: tracking mode pushes a pair with the
placeholder particle id `ParticleID(0, 0)`; counting mode increments. -/
def SpeciesCache.add (sc : SpeciesCache) (c : Coordinate) : SpeciesCache :=
  match sc.cache with
  | .Tracking l => { sc with cache := .Tracking (l ++ [(⟨0, 0⟩, c)]) }
  | .Count n => { sc with cache := .Count (n + 1) }

/-- Rust: `SpeciesCache::move_to(from, to)`: counting mode is a no-op. -/
def SpeciesCache.move_to (sc : SpeciesCache) (src dst : Coordinate) : SpeciesCache :=
  match sc.cache with
  | .Tracking l => { sc with cache := .Tracking (moveToFirst l src dst) }
  | .Count _ => sc

/-- Rust: `struct HCPLatticeSpace` (without the `f64` radius passthrough). -/
structure HCPLatticeSpace where
  size : HCPLatticeSize
  voxels : List (Option SpeciesID)
  species_cache : List SpeciesCache
deriving DecidableEq

/-- Rust: `HCPLatticeSpace::new`: `row * col * layer` voxels, all `None`, and
an empty species cache. -/
def HCPLatticeSpace.new (size : HCPLatticeSize) : HCPLatticeSpace :=
  { size := size
    voxels := List.replicate (size.row * size.col * size.layer) none
    species_cache := [] }

/-- Helper for `find_particle`: scan one tracking list for a particle id. -/
def findInPairs : List (ParticleID × Coordinate) → ParticleID → Option Coordinate
  | [], _ => none
  | (id, c) :: rest, pid => if id = pid then some c else findInPairs rest pid

/-- Helper for `find_particle`: scan the species caches in order. -/
def findParticleIn : List SpeciesCache → ParticleID → Option (Species × Coordinate)
  | [], _ => none
  | sc :: rest, pid =>
    match sc.cache with
    | .Tracking l =>
      match findInPairs l pid with
      | some c => some (sc.species, c)
      | none => findParticleIn rest pid
    | .Count _ => findParticleIn rest pid

/-- Rust: `HCPLatticeSpace::find_particle`: linear scan over tracking-mode
caches only; counting-mode caches are never searched. -/
def HCPLatticeSpace.find_particle (s : HCPLatticeSpace) (pid : ParticleID) : Option (Species × Coordinate) :=
  findParticleIn s.species_cache pid

/-- Rust: `HCPLatticeSpace::get_species_id_at`: bounds-checked voxel read,
`OutOfRange` when the coordinate is outside the array. -/
def HCPLatticeSpace.get_species_id_at (s : HCPLatticeSpace) (c : Coordinate) :
    Except Error (Option SpeciesID) :=
  match s.voxels[c]? with
  | some v => .ok v
  | none => .error (.OutOfRange c)

/-- Replace the cache entry of one species (Rust mutates through
`get_species_cache_mut`). -/
def HCPLatticeSpace.setCache (s : HCPLatticeSpace) (i : SpeciesID) (sc : SpeciesCache) :
    HCPLatticeSpace :=
  { s with species_cache := s.species_cache.set i sc }

/-- Rust `slice::swap(i, j)`: read both slots, then write both. -/
def swapList (l : List (Option SpeciesID)) (i j : Nat) : List (Option SpeciesID) :=
  (l.set i (l.getD j none)).set j (l.getD i none)

/-- Swap two raw voxel slots. -/
def HCPLatticeSpace.swapVoxels (s : HCPLatticeSpace) (i j : Nat) : HCPLatticeSpace :=
  { s with voxels := swapList s.voxels i j }

/-- Rust: `HCPLatticeSpace::move_particle`, step by step:
1. resolve the occupant at `src` (`OutOfRange` / `ParticleNotFound`),
2. resolve the occupant at `dst` (`OutOfRange`),
3. index the mover's cache (a panic — `none` — when the id is out of bounds),
4. substrate check `location != to_species_id` (`InvalidLocation`),
5. `move_to` on the mover's cache,
6. if `dst` held a species, `remove(dst)` then `add(src)` on that cache,
7. swap the raw voxel slots. -/
def HCPLatticeSpace.move_particle (s : HCPLatticeSpace) (src dst : Coordinate) :
    Option (Except Error Unit × HCPLatticeSpace) :=
  match s.get_species_id_at src with
  | .error e => some (.error e, s)
  | .ok none => some (.error (.ParticleNotFound src), s)
  | .ok (some fromId) =>
    match s.get_species_id_at dst with
    | .error e => some (.error e, s)
    | .ok toId =>
      match s.species_cache[fromId]? with
      | none => none
      | some fromCache =>
        if fromCache.location ≠ toId then
          some (.error (.InvalidLocation src dst), s)
        else
          match toId with
          | none => some (.ok (), (s.setCache fromId (fromCache.move_to src dst)).swapVoxels src dst)
          | some toId2 =>
            match (s.setCache fromId (fromCache.move_to src dst)).species_cache[toId2]? with
            | none => none
            | some toCache =>
              some (.ok (),
                ((s.setCache fromId (fromCache.move_to src dst)).setCache toId2
                  ((toCache.remove dst).add src)).swapVoxels src dst)

/-! ## Derived observations: occupancy tallies and invariants -/

/-- Number of pairs in a tracking list whose coordinate is `v`. -/
def countPairsAt (l : List (ParticleID × Coordinate)) (v : Coordinate) : Nat :=
  l.countP (fun p => decide (p.2 = v))

/-- Number of voxels currently assigned to species `i`. -/
def countAssigned (vox : List (Option SpeciesID)) (i : SpeciesID) : Nat :=
  vox.countP (fun o => decide (o = some i))

/-- Number of occupied voxels. -/
def countOccupied (vox : List (Option SpeciesID)) : Nat :=
  vox.countP (fun o => o.isSome)

/-- Placeholder cache used as the `List.getD` default; well-formedness
hypotheses ensure it is never actually read. -/
def emptyCache : SpeciesCache :=
  { species := ⟨""⟩, location := none, cache := .Count 0 }

/-- Exact-count tracking consistency: species `i`'s list holds exactly one
pair at every voxel assigned to `i` and none at any other in-range voxel. -/
def trackOKP (vox : List (Option SpeciesID)) (i : SpeciesID)
    (l : List (ParticleID × Coordinate)) : Prop :=
  ∀ v < vox.length, countPairsAt l v = if vox.getD v none = some i then 1 else 0

/-- Tracking consistency as the spec's claim literally words it: a voxel is
assigned to `i` iff `i`'s list contains exactly one pair at it. -/
def claimTrackOKP (vox : List (Option SpeciesID)) (i : SpeciesID)
    (l : List (ParticleID × Coordinate)) : Prop :=
  ∀ v < vox.length, (vox.getD v none = some i ↔ countPairsAt l v = 1)

/-- Per-entry exact-count consistency. -/
def cacheOKP (vox : List (Option SpeciesID)) (i : SpeciesID) (sc : SpeciesCache) : Prop :=
  match sc.cache with
  | .Tracking l => trackOKP vox i l
  | .Count n => n = countAssigned vox i

/-- Per-entry consistency in the claim's literal wording. -/
def claimCacheOKP (vox : List (Option SpeciesID)) (i : SpeciesID) (sc : SpeciesCache) : Prop :=
  match sc.cache with
  | .Tracking l => claimTrackOKP vox i l
  | .Count n => n = countAssigned vox i

/-- Exact-count consistency invariant over the whole state. -/
def invariantP (s : HCPLatticeSpace) : Prop :=
  ∀ i < s.species_cache.length, cacheOKP s.voxels i (s.species_cache.getD i emptyCache)

/-- The consistency invariant exactly as the claim words it. -/
def claimInvariantP (s : HCPLatticeSpace) : Prop :=
  ∀ i < s.species_cache.length, claimCacheOKP s.voxels i (s.species_cache.getD i emptyCache)

/-- Decidable form of `invariantP`. -/
def invariantB (s : HCPLatticeSpace) : Bool :=
  (List.range s.species_cache.length).all fun i =>
    match (s.species_cache.getD i emptyCache).cache with
    | .Tracking l => (List.range s.voxels.length).all fun v =>
        decide (countPairsAt l v = if s.voxels.getD v none = some i then 1 else 0)
    | .Count n => decide (n = countAssigned s.voxels i)

/-- Decidable form of `claimInvariantP`. -/
def claimInvariantB (s : HCPLatticeSpace) : Bool :=
  (List.range s.species_cache.length).all fun i =>
    match (s.species_cache.getD i emptyCache).cache with
    | .Tracking l => (List.range s.voxels.length).all fun v =>
        decide (s.voxels.getD v none = some i ↔ countPairsAt l v = 1)
    | .Count n => decide (n = countAssigned s.voxels i)

/-- Every species id stored in a voxel indexes an existing cache entry (the
condition under which the source's `Vec` indexing cannot panic). -/
def wfIdsB (s : HCPLatticeSpace) : Bool :=
  s.voxels.all fun o =>
    match o with
    | some i => decide (i < s.species_cache.length)
    | none => true

/-- Two cache entries agree on species, required substrate, mode, the
per-coordinate pair tally (tracking) and the count (counting). -/
def cacheEquiv (c1 c2 : SpeciesCache) : Prop :=
  c1.species = c2.species ∧ c1.location = c2.location ∧
    ((∃ l1 l2, c1.cache = .Tracking l1 ∧ c2.cache = .Tracking l2 ∧
        ∀ v, countPairsAt l1 v = countPairsAt l2 v) ∨
     (∃ n, c1.cache = .Count n ∧ c2.cache = .Count n))

/-- Pointwise `cacheEquiv` across two species indices. -/
def cachesEquiv (a b : List SpeciesCache) : Prop :=
  a.length = b.length ∧ ∀ i, cacheEquiv (a.getD i emptyCache) (b.getD i emptyCache)

/-- Run a list of moves, requiring every one of them to succeed. -/
def runMoves : HCPLatticeSpace → List (Coordinate × Coordinate) → Option HCPLatticeSpace
  | s, [] => some s
  | s, m :: rest =>
    match s.move_particle m.1 m.2 with
    | some (.ok (), s') => runMoves s' rest
    | _ => none

/-- One public-interface `move_particle` call, keeping whatever state the call
returns (failed calls return a state too; a panic leaves no new state). -/
def stepMove (s : HCPLatticeSpace) (m : Coordinate × Coordinate) : HCPLatticeSpace :=
  match s.move_particle m.1 m.2 with
  | some (_, s') => s'
  | none => s

/-! ## List-level helper lemmas -/

theorem getD_of_getElem? {α : Type} {l : List α} {i : Nat} {v d : α}
    (h : l[i]? = some v) : l.getD i d = v := by
  rw [List.getD_eq_getElem?_getD, h]; rfl

theorem getElem?_eq_some_getD {α : Type} {l : List α} {i : Nat} (d : α)
    (h : i < l.length) : l[i]? = some (l.getD i d) := by
  rw [List.getD_eq_getElem?_getD, List.getElem?_eq_getElem h]; rfl

theorem lt_length_of_getElem? {α : Type} {l : List α} {i : Nat} {v : α}
    (h : l[i]? = some v) : i < l.length := by
  by_contra hc
  push_neg at hc
  rw [List.getElem?_eq_none hc] at h
  cases h

theorem getD_set_self {α : Type} {l : List α} {i : Nat} {x d : α} (h : i < l.length) :
    (l.set i x).getD i d = x := by
  rw [List.getD_eq_getElem?_getD, List.getElem?_set]
  simp [h]

theorem getD_set_ne {α : Type} {l : List α} {i j : Nat} {x d : α} (h : i ≠ j) :
    (l.set i x).getD j d = l.getD j d := by
  rw [List.getD_eq_getElem?_getD, List.getElem?_set, if_neg h, ← List.getD_eq_getElem?_getD]

theorem set_getD_self {α : Type} {l : List α} {i : Nat} {d : α} (h : i < l.length) :
    l.set i (l.getD i d) = l := by
  apply List.ext_getElem?
  intro n
  rw [List.getElem?_set]
  split
  · next heq =>
    subst heq
    rw [List.getElem?_eq_getElem h, List.getD_eq_getElem?_getD, List.getElem?_eq_getElem h]
    rfl
  · rfl

theorem length_swapList (l : List (Option SpeciesID)) (i j : Nat) :
    (swapList l i j).length = l.length := by
  simp [swapList]

theorem getD_swapList_dst {l : List (Option SpeciesID)} {i j : Nat}
    (hj : j < l.length) : (swapList l i j).getD j none = l.getD i none := by
  unfold swapList
  exact getD_set_self (by simpa using hj)

theorem getD_swapList_src {l : List (Option SpeciesID)} {i j : Nat}
    (hi : i < l.length) : (swapList l i j).getD i none = l.getD j none := by
  unfold swapList
  by_cases h : j = i
  · subst h
    rw [getD_set_self (by simpa using hi)]
  · rw [getD_set_ne h, getD_set_self hi]

theorem getD_swapList_other {l : List (Option SpeciesID)} {i j v : Nat}
    (hvi : v ≠ i) (hvj : v ≠ j) : (swapList l i j).getD v none = l.getD v none := by
  unfold swapList
  rw [getD_set_ne (Ne.symm hvj), getD_set_ne (Ne.symm hvi)]

theorem swapList_self {l : List (Option SpeciesID)} {i : Nat} (hi : i < l.length) :
    swapList l i i = l := by
  unfold swapList
  rw [List.set_set, set_getD_self hi]

theorem swapList_comm (l : List (Option SpeciesID)) (i j : Nat)
    (hi : i < l.length) (hj : j < l.length) : swapList l i j = swapList l j i := by
  by_cases hij : i = j
  · subst hij; rfl
  · apply List.ext_getElem?
    intro n
    by_cases hn : n < l.length
    · have h1 : n < (swapList l i j).length := by rw [length_swapList]; exact hn
      have h2 : n < (swapList l j i).length := by rw [length_swapList]; exact hn
      rw [getElem?_eq_some_getD none h1, getElem?_eq_some_getD none h2]
      by_cases hni : n = i
      · subst hni
        rw [getD_swapList_src hi, getD_swapList_dst hi]
      · by_cases hnj : n = j
        · subst hnj
          rw [getD_swapList_dst hj, getD_swapList_src hj]
        · rw [getD_swapList_other hni hnj, getD_swapList_other hnj hni]
    · push_neg at hn
      rw [List.getElem?_eq_none (by rw [length_swapList]; exact hn),
        List.getElem?_eq_none (by rw [length_swapList]; exact hn)]

theorem swapList_swapList {l : List (Option SpeciesID)} {i j : Nat}
    (hi : i < l.length) (hj : j < l.length) : swapList (swapList l i j) i j = l := by
  have hi' : i < (swapList l i j).length := by rw [length_swapList]; exact hi
  have hj' : j < (swapList l i j).length := by rw [length_swapList]; exact hj
  apply List.ext_getElem?
  intro n
  by_cases hn : n < l.length
  · have h1 : n < (swapList (swapList l i j) i j).length := by
      rw [length_swapList, length_swapList]; exact hn
    rw [getElem?_eq_some_getD none h1, getElem?_eq_some_getD none hn]
    by_cases hni : n = i
    · subst hni
      rw [getD_swapList_src hi', getD_swapList_dst hj]
    · by_cases hnj : n = j
      · subst hnj
        rw [getD_swapList_dst hj', getD_swapList_src hi]
      · rw [getD_swapList_other hni hnj, getD_swapList_other hni hnj]
  · push_neg at hn
    rw [List.getElem?_eq_none (by rw [length_swapList, length_swapList]; exact hn),
      List.getElem?_eq_none hn]

theorem countP_set_eq {α : Type} (f : α → Bool) :
    ∀ (l : List α) (i : Nat) (y d : α), i < l.length →
      (l.set i y).countP f + (if f (l.getD i d) then 1 else 0) =
        l.countP f + (if f y then 1 else 0)
  | [], i, _, _, h => absurd h (by simp)
  | x :: tl, 0, y, d, _ => by
    have h1 : (x :: tl).set 0 y = y :: tl := rfl
    have h2 : (x :: tl).getD 0 d = x := rfl
    rw [h1, h2, List.countP_cons, List.countP_cons]
    omega
  | x :: tl, i + 1, y, d, h => by
    have ih := countP_set_eq f tl i y d (by simpa using h)
    have h1 : (x :: tl).set (i + 1) y = x :: tl.set i y := rfl
    have h2 : (x :: tl).getD (i + 1) d = tl.getD i d := rfl
    rw [h1, h2, List.countP_cons, List.countP_cons]
    omega

theorem countP_swapList (f : Option SpeciesID → Bool) (l : List (Option SpeciesID))
    (i j : Nat) (hi : i < l.length) (hj : j < l.length) :
    (swapList l i j).countP f = l.countP f := by
  by_cases hij : i = j
  · subst hij
    rw [swapList_self hi]
  · unfold swapList
    have h1 := countP_set_eq f (l.set i (l.getD j none)) j (l.getD i none) none
      (by simpa using hj)
    rw [getD_set_ne hij] at h1
    have h2 := countP_set_eq f l i (l.getD j none) none hi
    omega

/-! ## Tally lemmas for tracking lists -/

theorem countPairsAt_nil (v : Coordinate) : countPairsAt [] v = 0 := rfl

theorem countPairsAt_cons (p : ParticleID × Coordinate) (l : List (ParticleID × Coordinate))
    (v : Coordinate) :
    countPairsAt (p :: l) v = countPairsAt l v + (if p.2 = v then 1 else 0) := by
  simp [countPairsAt, List.countP_cons]

theorem countPairsAt_append (l1 l2 : List (ParticleID × Coordinate)) (v : Coordinate) :
    countPairsAt (l1 ++ l2) v = countPairsAt l1 v + countPairsAt l2 v := by
  simp [countPairsAt, List.countP_append]

theorem countPairsAt_singleton (p : ParticleID × Coordinate) (v : Coordinate) :
    countPairsAt [p] v = if p.2 = v then 1 else 0 := by
  simp [countPairsAt, List.countP_cons]

theorem removeFirst_of_count_zero :
    ∀ (l : List (ParticleID × Coordinate)) (c : Coordinate),
      countPairsAt l c = 0 → removeFirst l c = l
  | [], _, _ => rfl
  | p :: rest, c, h => by
    rw [countPairsAt_cons] at h
    have hp : p.2 ≠ c := by
      intro hc
      rw [if_pos hc] at h
      omega
    unfold removeFirst
    rw [if_neg hp, removeFirst_of_count_zero rest c (by omega)]

theorem countPairsAt_removeFirst :
    ∀ (l : List (ParticleID × Coordinate)) (c v : Coordinate), 0 < countPairsAt l c →
      countPairsAt (removeFirst l c) v = countPairsAt l v - (if v = c then 1 else 0)
  | [], c, v, h => by rw [countPairsAt_nil] at h; omega
  | p :: rest, c, v, h => by
    rw [countPairsAt_cons] at h
    unfold removeFirst
    by_cases hp : p.2 = c
    · rw [if_pos hp, countPairsAt_cons]
      by_cases hv : v = c
      · rw [if_pos hv, if_pos (hp.trans hv.symm)]
        omega
      · rw [if_neg hv, if_neg (fun he : p.2 = v => hv (he.symm.trans hp))]
        omega
    · rw [if_neg hp] at h ⊢
      have hrest : 0 < countPairsAt rest c := by omega
      rw [countPairsAt_cons, countPairsAt_cons,
        countPairsAt_removeFirst rest c v hrest]
      by_cases hv : v = c
      · subst hv
        have : 0 < countPairsAt rest v := hrest
        by_cases hpv : p.2 = v
        · exact absurd hpv hp
        · rw [if_neg hpv, if_pos rfl]
          omega
      · rw [if_neg hv]
        omega

theorem moveToFirst_of_count_zero :
    ∀ (l : List (ParticleID × Coordinate)) (a b : Coordinate),
      countPairsAt l a = 0 → moveToFirst l a b = l
  | [], _, _, _ => rfl
  | p :: rest, a, b, h => by
    rw [countPairsAt_cons] at h
    have hp : p.2 ≠ a := by
      intro hc
      rw [if_pos hc] at h
      omega
    unfold moveToFirst
    rw [if_neg hp, moveToFirst_of_count_zero rest a b (by omega)]

theorem moveToFirst_self :
    ∀ (l : List (ParticleID × Coordinate)) (a : Coordinate), moveToFirst l a a = l
  | [], _ => rfl
  | p :: rest, a => by
    unfold moveToFirst
    by_cases hp : p.2 = a
    · rw [if_pos hp]
      cases p with
      | mk q c =>
        simp only at hp
        rw [hp]
    · rw [if_neg hp, moveToFirst_self rest a]

theorem countPairsAt_moveToFirst :
    ∀ (l : List (ParticleID × Coordinate)) (a b v : Coordinate),
      0 < countPairsAt l a → a ≠ b →
      countPairsAt (moveToFirst l a b) v =
        countPairsAt l v + (if v = b then 1 else 0) - (if v = a then 1 else 0)
  | [], a, b, v, h, _ => by rw [countPairsAt_nil] at h; omega
  | p :: rest, a, b, v, h, hab => by
    rw [countPairsAt_cons] at h
    unfold moveToFirst
    by_cases hp : p.2 = a
    · rw [if_pos hp, countPairsAt_cons, countPairsAt_cons]
      by_cases hvb : v = b
      · rw [if_pos hvb, if_pos hvb.symm, if_neg (fun he : p.2 = v => hab (hp.symm.trans (he.trans hvb))),
          if_neg (fun he : v = a => hab (he.symm.trans hvb))]
        omega
      · rw [if_neg hvb, if_neg (fun he : (b : Coordinate) = v => hvb he.symm)]
        by_cases hva : v = a
        · rw [if_pos hva, if_pos (hp.trans hva.symm)]
          omega
        · rw [if_neg hva, if_neg (fun he : p.2 = v => hva (he.symm.trans hp))]
          omega
    · rw [if_neg hp] at h ⊢
      have hrest : 0 < countPairsAt rest a := by omega
      rw [countPairsAt_cons, countPairsAt_cons,
        countPairsAt_moveToFirst rest a b v hrest hab]
      by_cases hva : v = a
      · rw [if_pos hva, if_neg (fun he : v = b => hab (hva.symm.trans he))]
        have hpv : p.2 ≠ v := fun he => hp (he.trans hva)
        rw [if_neg hpv]
        omega
      · rw [if_neg hva]
        omega

theorem moveToFirst_decomp :
    ∀ (l : List (ParticleID × Coordinate)) (src dst : Coordinate),
      countPairsAt l src = 1 →
      ∃ l1 p l2, l = l1 ++ (p, src) :: l2 ∧ countPairsAt l1 src = 0 ∧
        moveToFirst l src dst = l1 ++ (p, dst) :: l2
  | [], src, _, h => by rw [countPairsAt_nil] at h; omega
  | q :: rest, src, dst, h => by
    rw [countPairsAt_cons] at h
    by_cases hq : q.2 = src
    · refine ⟨[], q.1, rest, ?_, rfl, ?_⟩
      · cases q with
        | mk qp qc =>
          simp only at hq
          rw [hq]
          rfl
      · unfold moveToFirst
        rw [if_pos hq]
        rfl
    · rw [if_neg hq] at h
      obtain ⟨l1, p, l2, hdec, hz, hmv⟩ := moveToFirst_decomp rest src dst (by omega)
      refine ⟨q :: l1, p, l2, by rw [hdec]; rfl, ?_, ?_⟩
      · rw [countPairsAt_cons, if_neg hq, hz]
      · unfold moveToFirst
        rw [if_neg hq, hmv]
        rfl

theorem countAssigned_pos {vox : List (Option SpeciesID)} {i : SpeciesID} {v : Coordinate}
    (hv : v < vox.length) (h : vox.getD v none = some i) : 0 < countAssigned vox i := by
  have hmem : some i ∈ vox := by
    have := getElem?_eq_some_getD none hv
    rw [h] at this
    exact List.getElem?_mem this
  rw [countAssigned, List.countP_pos_iff]
  exact ⟨some i, hmem, by simp⟩

/-! ## Characterizing the outcomes of move_particle -/

theorem get_species_id_at_ok_elim {s : HCPLatticeSpace} {c : Coordinate}
    {v : Option SpeciesID} (h : s.get_species_id_at c = .ok v) : s.voxels[c]? = some v := by
  unfold HCPLatticeSpace.get_species_id_at at h
  cases hc : s.voxels[c]? with
  | none => rw [hc] at h; cases h
  | some w => rw [hc] at h; cases h; rfl

theorem get_species_id_at_of_getElem {s : HCPLatticeSpace} {c : Coordinate}
    {v : Option SpeciesID} (h : s.voxels[c]? = some v) : s.get_species_id_at c = .ok v := by
  unfold HCPLatticeSpace.get_species_id_at
  rw [h]

theorem get_species_id_at_oor {s : HCPLatticeSpace} {c : Coordinate}
    (h : s.voxels.length ≤ c) : s.get_species_id_at c = .error (.OutOfRange c) := by
  unfold HCPLatticeSpace.get_species_id_at
  rw [List.getElem?_eq_none h]

theorem move_particle_err_elim {s : HCPLatticeSpace} {src dst : Coordinate} {e : Error}
    {s' : HCPLatticeSpace} (h : s.move_particle src dst = some (.error e, s')) : s' = s := by
  unfold HCPLatticeSpace.move_particle at h
  split at h
  · exact (Prod.mk.injEq _ _ _ _ ▸ Option.some.injEq _ _ ▸ h : _ ∧ _).2.symm ▸ rfl
  · simp only [Option.some.injEq, Prod.mk.injEq] at h
    exact h.2.symm ▸ rfl
  · split at h
    · simp only [Option.some.injEq, Prod.mk.injEq] at h
      exact h.2.symm ▸ rfl
    · split at h
      · cases h
      · split at h
        · simp only [Option.some.injEq, Prod.mk.injEq] at h
          exact h.2.symm ▸ rfl
        · split at h
          · simp only [Option.some.injEq, Prod.mk.injEq] at h
            cases h.1
          · split at h
            · cases h
            · simp only [Option.some.injEq, Prod.mk.injEq] at h
              cases h.1

theorem move_particle_ok_elim {s : HCPLatticeSpace} {src dst : Coordinate}
    {s' : HCPLatticeSpace} (h : s.move_particle src dst = some (.ok (), s')) :
    ∃ a fc, s.voxels[src]? = some (some a) ∧ s.species_cache[a]? = some fc ∧
      dst < s.voxels.length ∧ fc.location = s.voxels.getD dst none ∧
      ((s.voxels.getD dst none = none ∧
          s' = (s.setCache a (fc.move_to src dst)).swapVoxels src dst) ∨
       (∃ b tc, s.voxels.getD dst none = some b ∧
          (s.setCache a (fc.move_to src dst)).species_cache[b]? = some tc ∧
          s' = ((s.setCache a (fc.move_to src dst)).setCache b
            ((tc.remove dst).add src)).swapVoxels src dst)) := by
  unfold HCPLatticeSpace.move_particle at h
  split at h
  · cases h
  · cases h
  · next fromId heq1 =>
    have hsrc := get_species_id_at_ok_elim heq1
    split at h
    · cases h
    · next toId heq2 =>
      have hdst := get_species_id_at_ok_elim heq2
      have hdlt : dst < s.voxels.length := lt_length_of_getElem? hdst
      have hdgd : s.voxels.getD dst none = toId := getD_of_getElem? hdst
      split at h
      · cases h
      · next fc heq3 =>
        split at h
        · cases h
        · next hloc =>
          rw [not_not] at hloc
          split at h
          · simp only [Option.some.injEq, Prod.mk.injEq, true_and] at h
            exact ⟨fromId, fc, hsrc, heq3, hdlt, hloc.trans hdgd.symm,
              Or.inl ⟨hdgd, h.symm⟩⟩
          · rename_i toId2
            split at h
            · cases h
            · rename_i tc heq4
              simp only [Option.some.injEq, Prod.mk.injEq, true_and] at h
              exact ⟨fromId, fc, hsrc, heq3, hdlt, hloc.trans hdgd.symm,
                Or.inr ⟨toId2, tc, hdgd, heq4, h.symm⟩⟩

theorem move_particle_panic_free {s : HCPLatticeSpace} {src dst : Coordinate}
    (hwf : wfIdsB s = true) : s.move_particle src dst ≠ none := by
  intro h
  unfold HCPLatticeSpace.move_particle at h
  split at h
  · cases h
  · cases h
  · next fromId heq1 =>
    have hsrc := get_species_id_at_ok_elim heq1
    have hwf' := (List.all_eq_true.mp hwf) (some fromId) (List.getElem?_mem hsrc)
    have hflt : fromId < s.species_cache.length := by
      simpa using hwf'
    split at h
    · cases h
    · next toId heq2 =>
      have hdst := get_species_id_at_ok_elim heq2
      split at h
      · next heq3 =>
        rw [getElem?_eq_some_getD emptyCache hflt] at heq3
        cases heq3
      · next fc heq3 =>
        split at h
        · cases h
        · split at h
          · cases h
          · rename_i toId2 hne
            have hwf2 := (List.all_eq_true.mp hwf) (some toId2) (List.getElem?_mem hdst)
            have htlt : toId2 < s.species_cache.length := by
              simpa using hwf2
            split at h
            · next heq4 =>
              have : toId2 < ((s.setCache fromId (fc.move_to src dst)).species_cache).length := by
                simpa [HCPLatticeSpace.setCache] using htlt
              rw [getElem?_eq_some_getD emptyCache this] at heq4
              cases heq4
            · cases h

theorem move_particle_oor_src {s : HCPLatticeSpace} {src : Coordinate} (dst : Coordinate)
    (h : s.voxels.length ≤ src) :
    s.move_particle src dst = some (.error (.OutOfRange src), s) := by
  unfold HCPLatticeSpace.move_particle
  rw [get_species_id_at_oor h]

theorem move_particle_pnf {s : HCPLatticeSpace} {src : Coordinate} (dst : Coordinate)
    (h : s.voxels[src]? = some none) :
    s.move_particle src dst = some (.error (.ParticleNotFound src), s) := by
  unfold HCPLatticeSpace.move_particle
  rw [get_species_id_at_of_getElem h]

theorem move_particle_oor_dst {s : HCPLatticeSpace} {src dst : Coordinate} {a : SpeciesID}
    (h1 : s.voxels[src]? = some (some a)) (h2 : s.voxels.length ≤ dst) :
    s.move_particle src dst = some (.error (.OutOfRange dst), s) := by
  unfold HCPLatticeSpace.move_particle
  rw [get_species_id_at_of_getElem h1, get_species_id_at_oor h2]

theorem move_particle_il {s : HCPLatticeSpace} {src dst : Coordinate} {a : SpeciesID}
    {fc : SpeciesCache} (h1 : s.voxels[src]? = some (some a)) (h2 : dst < s.voxels.length)
    (h3 : s.species_cache[a]? = some fc) (h4 : fc.location ≠ s.voxels.getD dst none) :
    s.move_particle src dst = some (.error (.InvalidLocation src dst), s) := by
  unfold HCPLatticeSpace.move_particle
  rw [get_species_id_at_of_getElem h1,
    get_species_id_at_of_getElem (getElem?_eq_some_getD none h2)]
  dsimp only
  rw [h3]
  dsimp only
  rw [if_pos h4]

theorem move_particle_ok_none {s : HCPLatticeSpace} {src dst : Coordinate} {a : SpeciesID}
    {fc : SpeciesCache} (h1 : s.voxels[src]? = some (some a)) (h2 : dst < s.voxels.length)
    (h3 : s.species_cache[a]? = some fc) (h4 : fc.location = none)
    (h5 : s.voxels.getD dst none = none) :
    s.move_particle src dst =
      some (.ok (), (s.setCache a (fc.move_to src dst)).swapVoxels src dst) := by
  unfold HCPLatticeSpace.move_particle
  rw [get_species_id_at_of_getElem h1,
    get_species_id_at_of_getElem (getElem?_eq_some_getD none h2)]
  dsimp only
  rw [h5, h3]
  dsimp only
  rw [if_neg (fun hne => hne h4)]

theorem move_particle_ok_some {s : HCPLatticeSpace} {src dst : Coordinate} {a b : SpeciesID}
    {fc tc : SpeciesCache} (h1 : s.voxels[src]? = some (some a)) (h2 : dst < s.voxels.length)
    (h3 : s.species_cache[a]? = some fc) (h4 : fc.location = some b)
    (h5 : s.voxels.getD dst none = some b)
    (h6 : (s.setCache a (fc.move_to src dst)).species_cache[b]? = some tc) :
    s.move_particle src dst =
      some (.ok (), ((s.setCache a (fc.move_to src dst)).setCache b
        ((tc.remove dst).add src)).swapVoxels src dst) := by
  unfold HCPLatticeSpace.move_particle
  rw [get_species_id_at_of_getElem h1,
    get_species_id_at_of_getElem (getElem?_eq_some_getD none h2)]
  dsimp only
  rw [h5, h3]
  dsimp only
  rw [if_neg (fun hne => hne h4)]
  rw [h6]

theorem move_particle_panic {s : HCPLatticeSpace} {src dst : Coordinate} {a b : SpeciesID}
    {fc : SpeciesCache} (h1 : s.voxels[src]? = some (some a)) (h2 : dst < s.voxels.length)
    (h3 : s.species_cache[a]? = some fc) (h4 : fc.location = some b)
    (h5 : s.voxels.getD dst none = some b)
    (h6 : (s.setCache a (fc.move_to src dst)).species_cache[b]? = none) :
    s.move_particle src dst = none := by
  unfold HCPLatticeSpace.move_particle
  rw [get_species_id_at_of_getElem h1,
    get_species_id_at_of_getElem (getElem?_eq_some_getD none h2)]
  dsimp only
  rw [h5, h3]
  dsimp only
  rw [if_neg (fun hne => hne h4)]
  rw [h6]

theorem move_particle_match_ok_or_panic {s : HCPLatticeSpace} {src dst : Coordinate}
    {a : SpeciesID} {fc : SpeciesCache} (h1 : s.voxels[src]? = some (some a))
    (h2 : dst < s.voxels.length) (h3 : s.species_cache[a]? = some fc)
    (h4 : fc.location = s.voxels.getD dst none) :
    s.move_particle src dst = none ∨ ∃ s', s.move_particle src dst = some (.ok (), s') := by
  cases hto : s.voxels.getD dst none with
  | none => exact Or.inr ⟨_, move_particle_ok_none h1 h2 h3 (h4.trans hto) hto⟩
  | some b =>
    cases h6 : (s.setCache a (fc.move_to src dst)).species_cache[b]? with
    | none => exact Or.inl (move_particle_panic h1 h2 h3 (h4.trans hto) hto h6)
    | some tc => exact Or.inr ⟨_, move_particle_ok_some h1 h2 h3 (h4.trans hto) hto h6⟩

/-! ## Field-level facts about the cache operations -/

theorem move_to_Tracking {sc : SpeciesCache} {l : List (ParticleID × Coordinate)}
    (src dst : Coordinate) (h : sc.cache = .Tracking l) :
    sc.move_to src dst = { sc with cache := .Tracking (moveToFirst l src dst) } := by
  unfold SpeciesCache.move_to
  rw [h]

theorem move_to_Count {sc : SpeciesCache} {n : Nat} (src dst : Coordinate)
    (h : sc.cache = .Count n) : sc.move_to src dst = sc := by
  unfold SpeciesCache.move_to
  rw [h]

theorem remove_Tracking {sc : SpeciesCache} {l : List (ParticleID × Coordinate)}
    (c : Coordinate) (h : sc.cache = .Tracking l) :
    sc.remove c = { sc with cache := .Tracking (removeFirst l c) } := by
  unfold SpeciesCache.remove
  rw [h]

theorem remove_Count {sc : SpeciesCache} {n : Nat} (c : Coordinate)
    (h : sc.cache = .Count n) : sc.remove c = { sc with cache := .Count (n - 1) } := by
  unfold SpeciesCache.remove
  rw [h]

theorem add_Tracking {sc : SpeciesCache} {l : List (ParticleID × Coordinate)}
    (c : Coordinate) (h : sc.cache = .Tracking l) :
    sc.add c = { sc with cache := .Tracking (l ++ [(⟨0, 0⟩, c)]) } := by
  unfold SpeciesCache.add
  rw [h]

theorem add_Count {sc : SpeciesCache} {n : Nat} (c : Coordinate)
    (h : sc.cache = .Count n) : sc.add c = { sc with cache := .Count (n + 1) } := by
  unfold SpeciesCache.add
  rw [h]

theorem move_to_species (sc : SpeciesCache) (src dst : Coordinate) :
    (sc.move_to src dst).species = sc.species := by
  unfold SpeciesCache.move_to
  split <;> rfl

theorem move_to_location (sc : SpeciesCache) (src dst : Coordinate) :
    (sc.move_to src dst).location = sc.location := by
  unfold SpeciesCache.move_to
  split <;> rfl

theorem remove_species (sc : SpeciesCache) (c : Coordinate) :
    (sc.remove c).species = sc.species := by
  unfold SpeciesCache.remove
  split <;> rfl

theorem remove_location (sc : SpeciesCache) (c : Coordinate) :
    (sc.remove c).location = sc.location := by
  unfold SpeciesCache.remove
  split <;> rfl

theorem add_species (sc : SpeciesCache) (c : Coordinate) :
    (sc.add c).species = sc.species := by
  unfold SpeciesCache.add
  split <;> rfl

theorem add_location (sc : SpeciesCache) (c : Coordinate) :
    (sc.add c).location = sc.location := by
  unfold SpeciesCache.add
  split <;> rfl

/-! ## Bridging the Bool and Prop forms of the invariants -/

theorem cacheOKP_Tracking {vox : List (Option SpeciesID)} {i : SpeciesID} {sc : SpeciesCache}
    {l : List (ParticleID × Coordinate)} (h : sc.cache = .Tracking l) :
    cacheOKP vox i sc ↔ trackOKP vox i l := by
  unfold cacheOKP
  rw [h]

theorem cacheOKP_Count {vox : List (Option SpeciesID)} {i : SpeciesID} {sc : SpeciesCache}
    {n : Nat} (h : sc.cache = .Count n) :
    cacheOKP vox i sc ↔ n = countAssigned vox i := by
  unfold cacheOKP
  rw [h]

theorem claimCacheOKP_Tracking {vox : List (Option SpeciesID)} {i : SpeciesID}
    {sc : SpeciesCache} {l : List (ParticleID × Coordinate)} (h : sc.cache = .Tracking l) :
    claimCacheOKP vox i sc ↔ claimTrackOKP vox i l := by
  unfold claimCacheOKP
  rw [h]

theorem claimCacheOKP_Count {vox : List (Option SpeciesID)} {i : SpeciesID}
    {sc : SpeciesCache} {n : Nat} (h : sc.cache = .Count n) :
    claimCacheOKP vox i sc ↔ n = countAssigned vox i := by
  unfold claimCacheOKP
  rw [h]

theorem invariantB_iff (s : HCPLatticeSpace) : invariantB s = true ↔ invariantP s := by
  unfold invariantB invariantP
  simp only [List.all_eq_true, List.mem_range]
  constructor
  · intro h i hi
    have hh := h i hi
    cases hc : (s.species_cache.getD i emptyCache).cache with
    | Tracking l =>
      rw [cacheOKP_Tracking hc]
      rw [hc] at hh
      simp only [List.all_eq_true, List.mem_range] at hh
      intro v hv
      exact of_decide_eq_true (hh v hv)
    | Count n =>
      rw [cacheOKP_Count hc]
      rw [hc] at hh
      exact of_decide_eq_true hh
  · intro h i hi
    have hok := h i hi
    cases hc : (s.species_cache.getD i emptyCache).cache with
    | Tracking l =>
      rw [cacheOKP_Tracking hc] at hok
      dsimp only
      simp only [List.all_eq_true, List.mem_range]
      intro v hv
      exact decide_eq_true (hok v hv)
    | Count n =>
      rw [cacheOKP_Count hc] at hok
      exact decide_eq_true hok

theorem claimInvariantB_iff (s : HCPLatticeSpace) :
    claimInvariantB s = true ↔ claimInvariantP s := by
  unfold claimInvariantB claimInvariantP
  simp only [List.all_eq_true, List.mem_range]
  constructor
  · intro h i hi
    have hh := h i hi
    cases hc : (s.species_cache.getD i emptyCache).cache with
    | Tracking l =>
      rw [claimCacheOKP_Tracking hc]
      rw [hc] at hh
      simp only [List.all_eq_true, List.mem_range] at hh
      intro v hv
      exact of_decide_eq_true (hh v hv)
    | Count n =>
      rw [claimCacheOKP_Count hc]
      rw [hc] at hh
      exact of_decide_eq_true hh
  · intro h i hi
    have hok := h i hi
    cases hc : (s.species_cache.getD i emptyCache).cache with
    | Tracking l =>
      rw [claimCacheOKP_Tracking hc] at hok
      dsimp only
      simp only [List.all_eq_true, List.mem_range]
      intro v hv
      exact decide_eq_true (hok v hv)
    | Count n =>
      rw [claimCacheOKP_Count hc] at hok
      exact decide_eq_true hok

theorem invariantP_imp_claim {s : HCPLatticeSpace} (h : invariantP s) : claimInvariantP s := by
  intro i hi
  have hok := h i hi
  cases hc : (s.species_cache.getD i emptyCache).cache with
  | Tracking l =>
    rw [claimCacheOKP_Tracking hc]
    rw [cacheOKP_Tracking hc] at hok
    intro v hv
    have := hok v hv
    constructor
    · intro hown
      rw [this, if_pos hown]
    · intro hcount
      by_contra hown
      rw [if_neg hown] at this
      omega
  | Count n =>
    rw [claimCacheOKP_Count hc]
    rw [cacheOKP_Count hc] at hok
    exact hok

theorem cacheEquiv_refl (sc : SpeciesCache) : cacheEquiv sc sc := by
  refine ⟨rfl, rfl, ?_⟩
  cases hc : sc.cache with
  | Tracking l => exact Or.inl ⟨l, l, rfl, rfl, fun _ => rfl⟩
  | Count n => exact Or.inr ⟨n, rfl, rfl⟩

theorem cachesEquiv_refl (cs : List SpeciesCache) : cachesEquiv cs cs :=
  ⟨rfl, fun _ => cacheEquiv_refl _⟩

/-! ## Helpers for reasoning about a successful move -/

theorem setCache_voxels (s : HCPLatticeSpace) (i : SpeciesID) (sc : SpeciesCache) :
    (s.setCache i sc).voxels = s.voxels := rfl

theorem setCache_species_cache (s : HCPLatticeSpace) (i : SpeciesID) (sc : SpeciesCache) :
    (s.setCache i sc).species_cache = s.species_cache.set i sc := rfl

theorem swapVoxels_voxels (s : HCPLatticeSpace) (i j : Nat) :
    (s.swapVoxels i j).voxels = swapList s.voxels i j := rfl

theorem swapVoxels_species_cache (s : HCPLatticeSpace) (i j : Nat) :
    (s.swapVoxels i j).species_cache = s.species_cache := rfl

theorem trackOK_count_one {vox : List (Option SpeciesID)} {i : SpeciesID}
    {l : List (ParticleID × Coordinate)} {v : Coordinate} (hv : v < vox.length)
    (hold : trackOKP vox i l) (h : vox.getD v none = some i) : countPairsAt l v = 1 := by
  have := hold v hv
  rw [if_pos h] at this
  exact this

theorem trackOK_count_zero {vox : List (Option SpeciesID)} {i : SpeciesID}
    {l : List (ParticleID × Coordinate)} {v : Coordinate} (hv : v < vox.length)
    (hold : trackOKP vox i l) (h : vox.getD v none ≠ some i) : countPairsAt l v = 0 := by
  have := hold v hv
  rw [if_neg h] at this
  exact this

theorem countPairsAt_push (l : List (ParticleID × Coordinate)) (q : ParticleID)
    (c v : Coordinate) :
    countPairsAt (l ++ [(q, c)]) v = countPairsAt l v + (if v = c then 1 else 0) := by
  rw [countPairsAt_append, countPairsAt_singleton]
  by_cases h : v = c
  · rw [if_pos h, if_pos (show ((q, c) : ParticleID × Coordinate).2 = v from h.symm)]
  · rw [if_neg h, if_neg (show ¬ ((q, c) : ParticleID × Coordinate).2 = v from
      fun hc => h hc.symm)]

theorem trackOKP_update {vox : List (Option SpeciesID)} {i : SpeciesID}
    {l l' : List (ParticleID × Coordinate)} {src dst : Coordinate}
    (hold : trackOKP vox i l)
    (hsrcC : countPairsAt l' src =
      if (swapList vox src dst).getD src none = some i then 1 else 0)
    (hdstC : countPairsAt l' dst =
      if (swapList vox src dst).getD dst none = some i then 1 else 0)
    (hother : ∀ v, v ≠ src → v ≠ dst → countPairsAt l' v = countPairsAt l v) :
    trackOKP (swapList vox src dst) i l' := by
  intro v hv
  rw [length_swapList] at hv
  by_cases hvd : v = dst
  · subst hvd
    exact hdstC
  · by_cases hvs : v = src
    · subst hvs
      exact hsrcC
    · rw [hother v hvs hvd, getD_swapList_other hvs hvd]
      exact hold v hv

theorem countAssigned_swapList {vox : List (Option SpeciesID)} (i : SpeciesID)
    {src dst : Nat} (hs : src < vox.length) (hd : dst < vox.length) :
    countAssigned (swapList vox src dst) i = countAssigned vox i :=
  countP_swapList _ _ _ _ hs hd

theorem countOccupied_swapList {vox : List (Option SpeciesID)} {src dst : Nat}
    (hs : src < vox.length) (hd : dst < vox.length) :
    countOccupied (swapList vox src dst) = countOccupied vox :=
  countP_swapList _ _ _ _ hs hd

theorem remove_add_Tracking {sc : SpeciesCache} {l : List (ParticleID × Coordinate)}
    (c1 c2 : Coordinate) (h : sc.cache = .Tracking l) :
    ((sc.remove c1).add c2).cache = .Tracking (removeFirst l c1 ++ [(⟨0, 0⟩, c2)]) := by
  rw [remove_Tracking c1 h, add_Tracking c2 rfl]

theorem remove_add_Count {sc : SpeciesCache} {n : Nat} (c1 c2 : Coordinate)
    (h : sc.cache = .Count n) : ((sc.remove c1).add c2).cache = .Count (n - 1 + 1) := by
  rw [remove_Count c1 h, add_Count c2 rfl]

theorem move_to_cache_Tracking {sc : SpeciesCache} {l : List (ParticleID × Coordinate)}
    (src dst : Coordinate) (h : sc.cache = .Tracking l) :
    (sc.move_to src dst).cache = .Tracking (moveToFirst l src dst) := by
  rw [move_to_Tracking src dst h]

theorem move_to_cache_Count {sc : SpeciesCache} {n : Nat} (src dst : Coordinate)
    (h : sc.cache = .Count n) : (sc.move_to src dst).cache = .Count n := by
  rw [move_to_Count src dst h, h]

/-- The exact-count consistency invariant is preserved by one successful move. -/
theorem invariantP_step {s s' : HCPLatticeSpace} {src dst : Coordinate}
    (hinv : invariantP s) (h : s.move_particle src dst = some (.ok (), s')) :
    invariantP s' := by
  obtain ⟨a, fc, hsrc, hfca, hdlt, hloc, hcases⟩ := move_particle_ok_elim h
  have hslt : src < s.voxels.length := lt_length_of_getElem? hsrc
  have hsgd : s.voxels.getD src none = some a := getD_of_getElem? hsrc
  have halt : a < s.species_cache.length := lt_length_of_getElem? hfca
  have hfgd : s.species_cache.getD a emptyCache = fc := getD_of_getElem? hfca
  have hokA := hinv a halt
  rw [hfgd] at hokA
  have hnew_dst : (swapList s.voxels src dst).getD dst none = some a :=
    (getD_swapList_dst hdlt).trans hsgd
  have hnew_src : (swapList s.voxels src dst).getD src none = s.voxels.getD dst none :=
    getD_swapList_src hslt
  rcases hcases with ⟨hdn, hs'⟩ | ⟨b, tc, hdb, htcb, hs'⟩
  · -- destination slot empty: only the mover's cache is touched
    subst hs'
    have hsd : src ≠ dst := fun he => by rw [he, hdn] at hsgd; cases hsgd
    intro i hi
    rw [swapVoxels_species_cache, setCache_species_cache, List.length_set] at hi
    rw [swapVoxels_species_cache, setCache_species_cache, swapVoxels_voxels, setCache_voxels]
    by_cases hia : i = a
    · subst hia
      rw [getD_set_self halt]
      cases hfc : fc.cache with
      | Tracking l =>
        rw [cacheOKP_Tracking (move_to_cache_Tracking src dst hfc)]
        have holdA : trackOKP s.voxels i l := (cacheOKP_Tracking hfc).mp hokA
        have hc1 : countPairsAt l src = 1 := trackOK_count_one hslt holdA hsgd
        have hc0 : countPairsAt l dst = 0 :=
          trackOK_count_zero hdlt holdA (by rw [hdn]; exact fun hx => by cases hx)
        have hpos : 0 < countPairsAt l src := by omega
        have hni : (none : Option SpeciesID) ≠ some i := fun hx => by cases hx
        apply trackOKP_update holdA
        · rw [hnew_src, hdn, countPairsAt_moveToFirst l src dst src hpos hsd]
          simp only [hni, hsd, if_false, eq_self_iff_true, if_true]
          omega
        · rw [hnew_dst, countPairsAt_moveToFirst l src dst dst hpos hsd]
          simp only [Ne.symm hsd, if_false, eq_self_iff_true, if_true]
          omega
        · intro v hvs hvd
          rw [countPairsAt_moveToFirst l src dst v hpos hsd]
          simp only [hvs, hvd, if_false]
          omega
      | Count n =>
        rw [cacheOKP_Count (move_to_cache_Count src dst hfc),
          countAssigned_swapList i hslt hdlt]
        exact (cacheOKP_Count hfc).mp hokA
    · rw [getD_set_ne (fun he => hia he.symm)]
      have hokI := hinv i hi
      cases hsc : (s.species_cache.getD i emptyCache).cache with
      | Tracking l =>
        rw [cacheOKP_Tracking hsc] at hokI ⊢
        have hni : (none : Option SpeciesID) ≠ some i := fun hx => by cases hx
        have hai : (some a : Option SpeciesID) ≠ some i :=
          fun hx => hia (Option.some.inj hx).symm
        apply trackOKP_update hokI
        · rw [hnew_src, hdn]
          simp only [hni, if_false]
          exact trackOK_count_zero hslt hokI (by rw [hsgd]; exact hai)
        · rw [hnew_dst]
          simp only [hai, if_false]
          exact trackOK_count_zero hdlt hokI (by rw [hdn]; exact hni)
        · intro v _ _
          rfl
      | Count n =>
        rw [cacheOKP_Count hsc] at hokI ⊢
        rw [countAssigned_swapList i hslt hdlt]
        exact hokI
  · -- destination slot occupied by species b
    subst hs'
    have hblt : b < s.species_cache.length := by
      have := lt_length_of_getElem? htcb
      rw [setCache_species_cache, List.length_set] at this
      exact this
    have htcgd : tc = (s.species_cache.set a (fc.move_to src dst)).getD b emptyCache := by
      have h2 : (s.setCache a (fc.move_to src dst)).species_cache.getD b emptyCache = tc :=
        getD_of_getElem? htcb
      rw [setCache_species_cache] at h2
      exact h2.symm
    intro i hi
    rw [swapVoxels_species_cache, setCache_species_cache, setCache_species_cache,
      List.length_set, List.length_set] at hi
    rw [swapVoxels_species_cache, setCache_species_cache, setCache_species_cache,
      swapVoxels_voxels, setCache_voxels, setCache_voxels]
    by_cases hba : b = a
    · -- the destination is occupied by the mover's own species
      subst hba
      have htcfc : tc = fc.move_to src dst := by
        rw [htcgd, getD_set_self halt]
      subst htcfc
      by_cases hsd : src = dst
      · -- self-move: the voxel array is untouched
        subst hsd
        rw [swapList_self hslt]
        by_cases hia : i = b
        · subst hia
          rw [List.set_set, getD_set_self halt]
          cases hfc : fc.cache with
          | Tracking l =>
            have hmt : (fc.move_to src src).cache = .Tracking l := by
              rw [move_to_cache_Tracking src src hfc, moveToFirst_self]
            rw [cacheOKP_Tracking (remove_add_Tracking src src hmt)]
            have holdA : trackOKP s.voxels i l := (cacheOKP_Tracking hfc).mp hokA
            have hc1 : countPairsAt l src = 1 := trackOK_count_one hslt holdA hsgd
            intro v hv
            rw [countPairsAt_push, countPairsAt_removeFirst l src v (by omega)]
            have hvv := holdA v hv
            by_cases hvs : v = src
            · subst hvs
              simp only [eq_self_iff_true, if_true]
              rw [hsgd]
              simp only [eq_self_iff_true, if_true]
              omega
            · simp only [hvs, if_false]
              omega
          | Count n =>
            have hmt : (fc.move_to src src).cache = .Count n := move_to_cache_Count src src hfc
            rw [cacheOKP_Count (remove_add_Count src src hmt)]
            have hn : n = countAssigned s.voxels i := (cacheOKP_Count hfc).mp hokA
            have hpos : 0 < countAssigned s.voxels i := countAssigned_pos hslt hsgd
            omega
        · rw [List.set_set, getD_set_ne (fun he => hia he.symm)]
          exact hinv i hi
      · -- same species at both ends, distinct voxels
        by_cases hia : i = b
        · subst hia
          rw [List.set_set, getD_set_self halt]
          cases hfc : fc.cache with
          | Tracking l =>
            have hmt : (fc.move_to src dst).cache = .Tracking (moveToFirst l src dst) :=
              move_to_cache_Tracking src dst hfc
            rw [cacheOKP_Tracking (remove_add_Tracking dst src hmt)]
            have holdA : trackOKP s.voxels i l := (cacheOKP_Tracking hfc).mp hokA
            have hc1 : countPairsAt l src = 1 := trackOK_count_one hslt holdA hsgd
            have hc2 : countPairsAt l dst = 1 := trackOK_count_one hdlt holdA hdb
            have hpos : 0 < countPairsAt l src := by omega
            have hL1 : ∀ v, countPairsAt (moveToFirst l src dst) v =
                countPairsAt l v + (if v = dst then 1 else 0) - (if v = src then 1 else 0) :=
              fun v => countPairsAt_moveToFirst l src dst v hpos hsd
            have hpos2 : 0 < countPairsAt (moveToFirst l src dst) dst := by
              rw [hL1 dst]
              simp only [Ne.symm hsd, if_false, eq_self_iff_true, if_true]
              omega
            apply trackOKP_update holdA
            · rw [hnew_src, hdb, countPairsAt_push,
                countPairsAt_removeFirst _ _ _ hpos2, hL1 src]
              simp only [hsd, if_false, eq_self_iff_true, if_true]
              omega
            · rw [hnew_dst, countPairsAt_push,
                countPairsAt_removeFirst _ _ _ hpos2, hL1 dst]
              simp only [Ne.symm hsd, if_false, eq_self_iff_true, if_true]
              omega
            · intro v hvs hvd
              rw [countPairsAt_push, countPairsAt_removeFirst _ _ _ hpos2, hL1 v]
              simp only [hvs, hvd, if_false]
              omega
          | Count n =>
            have hmt : (fc.move_to src dst).cache = .Count n := move_to_cache_Count src dst hfc
            rw [cacheOKP_Count (remove_add_Count dst src hmt),
              countAssigned_swapList i hslt hdlt]
            have hn : n = countAssigned s.voxels i := (cacheOKP_Count hfc).mp hokA
            have hpos : 0 < countAssigned s.voxels i := countAssigned_pos hslt hsgd
            omega
        · rw [List.set_set, getD_set_ne (fun he => hia he.symm)]
          have hokI := hinv i hi
          have hai : (some b : Option SpeciesID) ≠ some i :=
            fun hx => hia (Option.some.inj hx).symm
          cases hsc : (s.species_cache.getD i emptyCache).cache with
          | Tracking l =>
            rw [cacheOKP_Tracking hsc] at hokI ⊢
            apply trackOKP_update hokI
            · rw [hnew_src, hdb]
              simp only [hai, if_false]
              exact trackOK_count_zero hslt hokI (by rw [hsgd]; exact hai)
            · rw [hnew_dst]
              simp only [hai, if_false]
              exact trackOK_count_zero hdlt hokI (by rw [hdb]; exact hai)
            · intro v _ _
              rfl
          | Count n =>
            rw [cacheOKP_Count hsc] at hokI ⊢
            rw [countAssigned_swapList i hslt hdlt]
            exact hokI
    · -- the destination is occupied by a different species b
      have hsd : src ≠ dst := by
        intro he
        rw [he, hdb] at hsgd
        exact hba (Option.some.inj hsgd)
      have htcB : tc = s.species_cache.getD b emptyCache := by
        rw [htcgd, getD_set_ne (fun he : a = b => hba he.symm)]
      have hokB := hinv b hblt
      by_cases hia : i = a
      · subst hia
        rw [getD_set_ne hba, getD_set_self halt]
        have hbi : (some b : Option SpeciesID) ≠ some i :=
          fun hx => hba (Option.some.inj hx)
        cases hfc : fc.cache with
        | Tracking l =>
          rw [cacheOKP_Tracking (move_to_cache_Tracking src dst hfc)]
          have holdA : trackOKP s.voxels i l := (cacheOKP_Tracking hfc).mp hokA
          have hc1 : countPairsAt l src = 1 := trackOK_count_one hslt holdA hsgd
          have hc0 : countPairsAt l dst = 0 :=
            trackOK_count_zero hdlt holdA (by rw [hdb]; exact hbi)
          have hpos : 0 < countPairsAt l src := by omega
          apply trackOKP_update holdA
          · rw [hnew_src, hdb, countPairsAt_moveToFirst l src dst src hpos hsd]
            simp only [hbi, hsd, if_false, eq_self_iff_true, if_true]
            omega
          · rw [hnew_dst, countPairsAt_moveToFirst l src dst dst hpos hsd]
            simp only [Ne.symm hsd, if_false, eq_self_iff_true, if_true]
            omega
          · intro v hvs hvd
            rw [countPairsAt_moveToFirst l src dst v hpos hsd]
            simp only [hvs, hvd, if_false]
            omega
        | Count n =>
          rw [cacheOKP_Count (move_to_cache_Count src dst hfc),
            countAssigned_swapList i hslt hdlt]
          exact (cacheOKP_Count hfc).mp hokA
      · by_cases hib : i = b
        · subst hib
          have hblt2 : i < (s.species_cache.set a (fc.move_to src dst)).length := by
            rw [List.length_set]
            exact hblt
          rw [getD_set_self hblt2]
          have hai : (some a : Option SpeciesID) ≠ some i :=
            fun hx => hba ((Option.some.inj hx).symm) |>.elim
          cases hscB : (s.species_cache.getD i emptyCache).cache with
          | Tracking lb =>
            have htcT : tc.cache = .Tracking lb := by rw [htcB]; exact hscB
            rw [cacheOKP_Tracking (remove_add_Tracking dst src htcT)]
            have holdB : trackOKP s.voxels i lb := (cacheOKP_Tracking hscB).mp hokB
            have hb1 : countPairsAt lb dst = 1 := trackOK_count_one hdlt holdB hdb
            have hb0 : countPairsAt lb src = 0 :=
              trackOK_count_zero hslt holdB (by rw [hsgd]; exact hai)
            apply trackOKP_update holdB
            · rw [hnew_src, hdb, countPairsAt_push,
                countPairsAt_removeFirst lb dst src (by omega)]
              simp only [hsd, if_false, eq_self_iff_true, if_true]
              omega
            · rw [hnew_dst, countPairsAt_push,
                countPairsAt_removeFirst lb dst dst (by omega)]
              simp only [hai, Ne.symm hsd, if_false, eq_self_iff_true, if_true]
              omega
            · intro v hvs hvd
              rw [countPairsAt_push, countPairsAt_removeFirst lb dst v (by omega)]
              simp only [hvs, hvd, if_false]
              omega
          | Count n =>
            have htcN : tc.cache = .Count n := by rw [htcB]; exact hscB
            rw [cacheOKP_Count (remove_add_Count dst src htcN),
              countAssigned_swapList i hslt hdlt]
            have hn : n = countAssigned s.voxels i := (cacheOKP_Count hscB).mp hokB
            have hpos : 0 < countAssigned s.voxels i := countAssigned_pos hdlt hdb
            omega
        · rw [getD_set_ne (fun he => hib he.symm), getD_set_ne (fun he => hia he.symm)]
          have hokI := hinv i hi
          have hai : (some a : Option SpeciesID) ≠ some i :=
            fun hx => hia (Option.some.inj hx).symm
          have hbi : (some b : Option SpeciesID) ≠ some i :=
            fun hx => hib (Option.some.inj hx).symm
          cases hsc : (s.species_cache.getD i emptyCache).cache with
          | Tracking l =>
            rw [cacheOKP_Tracking hsc] at hokI ⊢
            apply trackOKP_update hokI
            · rw [hnew_src, hdb]
              simp only [hbi, if_false]
              exact trackOK_count_zero hslt hokI (by rw [hsgd]; exact hai)
            · rw [hnew_dst]
              simp only [hai, if_false]
              exact trackOK_count_zero hdlt hokI (by rw [hdb]; exact hbi)
            · intro v _ _
              rfl
          | Count n =>
            rw [cacheOKP_Count hsc] at hokI ⊢
            rw [countAssigned_swapList i hslt hdlt]
            exact hokI

/-- Invariant preservation extends to any all-successful run of moves. -/
theorem invariantP_runMoves :
    ∀ (ms : List (Coordinate × Coordinate)) (s s' : HCPLatticeSpace),
      invariantP s → runMoves s ms = some s' → invariantP s'
  | [], s, s', hinv, h => by
    unfold runMoves at h
    cases h
    exact hinv
  | m :: rest, s, s', hinv, h => by
    unfold runMoves at h
    split at h
    · next s1 hm =>
      exact invariantP_runMoves rest s1 s' (invariantP_step hinv hm) h
    · cases h

/-- A successful move swaps the two (in-range) voxel slots. -/
theorem move_ok_voxels {s s' : HCPLatticeSpace} {src dst : Coordinate}
    (h : s.move_particle src dst = some (.ok (), s')) :
    s'.voxels = swapList s.voxels src dst ∧ src < s.voxels.length ∧ dst < s.voxels.length := by
  obtain ⟨a, fc, hsrc, hfca, hdlt, hloc, hcases⟩ := move_particle_ok_elim h
  have hslt := lt_length_of_getElem? hsrc
  rcases hcases with ⟨_, hs'⟩ | ⟨b, tc, _, _, hs'⟩
  · subst hs'
    exact ⟨by rw [swapVoxels_voxels, setCache_voxels], hslt, hdlt⟩
  · subst hs'
    exact ⟨by rw [swapVoxels_voxels, setCache_voxels, setCache_voxels], hslt, hdlt⟩

/-- Reading the one-place count consistency out of the claim-form invariant. -/
theorem claimTrack_count_one {vox : List (Option SpeciesID)} {i : SpeciesID}
    {l : List (ParticleID × Coordinate)} {v : Coordinate} (hv : v < vox.length)
    (hold : claimTrackOKP vox i l) (h : vox.getD v none = some i) :
    countPairsAt l v = 1 :=
  (hold v hv).mp h

theorem lt_of_getD_eq_some {vox : List (Option SpeciesID)} {v : Coordinate} {i : SpeciesID}
    (h : vox.getD v none = some i) : v < vox.length := by
  by_contra hle
  push_neg at hle
  rw [List.getD_eq_getElem?_getD, List.getElem?_eq_none hle] at h
  cases h

/-- Counting-mode safety: under the invariant, a counting species occupying a
voxel has a positive count (so the `*count -= 1` in `remove` cannot underflow
when `move_particle` displaces it). -/
theorem counting_remove_safe {s : HCPLatticeSpace} {dst : Coordinate} {i : SpeciesID} {n : Nat}
    (hinv : invariantP s) (hi : i < s.species_cache.length)
    (hdst : s.voxels.getD dst none = some i)
    (hc : (s.species_cache.getD i emptyCache).cache = .Count n) : 0 < n := by
  have hn := (cacheOKP_Count hc).mp (hinv i hi)
  have hdlt : dst < s.voxels.length := lt_of_getD_eq_some hdst
  have hpos := countAssigned_pos hdlt hdst
  omega

theorem swapList_swapList_rev {l : List (Option SpeciesID)} {i j : Nat}
    (hi : i < l.length) (hj : j < l.length) : swapList (swapList l i j) j i = l := by
  rw [swapList_comm (swapList l i j) j i (by rw [length_swapList]; exact hj)
    (by rw [length_swapList]; exact hi)]
  exact swapList_swapList hi hj

/-! ## Count chains for round trips and self-moves -/

theorem count_mtf_mtf {l : List (ParticleID × Coordinate)} {x y : Coordinate}
    (hxy : x ≠ y) (hc1 : countPairsAt l x = 1) (v : Coordinate) :
    countPairsAt (moveToFirst (moveToFirst l x y) y x) v = countPairsAt l v := by
  have hpos1 : 0 < countPairsAt l x := by omega
  have d1 : ∀ w, countPairsAt (moveToFirst l x y) w =
      countPairsAt l w + (if w = y then 1 else 0) - (if w = x then 1 else 0) :=
    fun w => countPairsAt_moveToFirst l x y w hpos1 hxy
  have hpos2 : 0 < countPairsAt (moveToFirst l x y) y := by
    rw [d1 y]
    simp only [eq_self_iff_true, if_true, Ne.symm hxy, if_false]
    omega
  rw [countPairsAt_moveToFirst _ y x v hpos2 (Ne.symm hxy), d1 v]
  by_cases hvx : v = x
  · subst hvx
    simp only [hxy, if_false, eq_self_iff_true, if_true]
    omega
  · by_cases hvy : v = y
    · subst hvy
      simp only [Ne.symm hxy, if_false, eq_self_iff_true, if_true]
      omega
    · simp only [hvx, hvy, if_false]
      omega

theorem count_ra_ra {lb : List (ParticleID × Coordinate)} {x y : Coordinate}
    (hxy : x ≠ y) (hcy : 0 < countPairsAt lb y) (v : Coordinate) :
    countPairsAt (removeFirst (removeFirst lb y ++ [(⟨0, 0⟩, x)]) x ++ [(⟨0, 0⟩, y)]) v =
      countPairsAt lb v := by
  have d1 : ∀ w, countPairsAt (removeFirst lb y ++ [(⟨0, 0⟩, x)]) w =
      countPairsAt lb w - (if w = y then 1 else 0) + (if w = x then 1 else 0) :=
    fun w => by rw [countPairsAt_push, countPairsAt_removeFirst lb y w hcy]
  have hpos2 : 0 < countPairsAt (removeFirst lb y ++ [(⟨0, 0⟩, x)]) x := by
    rw [d1 x]
    simp only [hxy, if_false, eq_self_iff_true, if_true]
    omega
  rw [countPairsAt_push, countPairsAt_removeFirst _ x v hpos2, d1 v]
  by_cases hvx : v = x
  · subst hvx
    simp only [hxy, if_false, eq_self_iff_true, if_true]
    omega
  · by_cases hvy : v = y
    · subst hvy
      simp only [Ne.symm hxy, if_false, eq_self_iff_true, if_true]
      omega
    · simp only [hvx, hvy, if_false]
      omega

theorem count_same_chain {l : List (ParticleID × Coordinate)} {x y : Coordinate}
    (hxy : x ≠ y) (hc1 : countPairsAt l x = 1) (hcy : countPairsAt l y = 1) (v : Coordinate) :
    countPairsAt (removeFirst (moveToFirst (removeFirst (moveToFirst l x y) y ++
      [(⟨0, 0⟩, x)]) y x) x ++ [(⟨0, 0⟩, y)]) v = countPairsAt l v := by
  have hpos1 : 0 < countPairsAt l x := by omega
  have d1 : ∀ w, countPairsAt (moveToFirst l x y) w =
      countPairsAt l w + (if w = y then 1 else 0) - (if w = x then 1 else 0) :=
    fun w => countPairsAt_moveToFirst l x y w hpos1 hxy
  have hpos2 : 0 < countPairsAt (moveToFirst l x y) y := by
    rw [d1 y]
    simp only [eq_self_iff_true, if_true, Ne.symm hxy, if_false]
    omega
  have d2 : ∀ w, countPairsAt (removeFirst (moveToFirst l x y) y ++ [(⟨0, 0⟩, x)]) w =
      countPairsAt (moveToFirst l x y) w - (if w = y then 1 else 0) +
        (if w = x then 1 else 0) :=
    fun w => by rw [countPairsAt_push, countPairsAt_removeFirst _ y w hpos2]
  have hpos3 : 0 < countPairsAt (removeFirst (moveToFirst l x y) y ++ [(⟨0, 0⟩, x)]) y := by
    rw [d2 y, d1 y]
    simp only [eq_self_iff_true, if_true, Ne.symm hxy, if_false]
    omega
  have d3 : ∀ w, countPairsAt (moveToFirst (removeFirst (moveToFirst l x y) y ++
      [(⟨0, 0⟩, x)]) y x) w =
      countPairsAt (removeFirst (moveToFirst l x y) y ++ [(⟨0, 0⟩, x)]) w +
        (if w = x then 1 else 0) - (if w = y then 1 else 0) :=
    fun w => countPairsAt_moveToFirst _ y x w hpos3 (Ne.symm hxy)
  have hpos4 : 0 < countPairsAt (moveToFirst (removeFirst (moveToFirst l x y) y ++
      [(⟨0, 0⟩, x)]) y x) x := by
    rw [d3 x, d2 x, d1 x]
    simp only [eq_self_iff_true, if_true, hxy, if_false]
    omega
  rw [countPairsAt_push, countPairsAt_removeFirst _ x v hpos4, d3 v, d2 v, d1 v]
  by_cases hvx : v = x
  · subst hvx
    simp only [hxy, if_false, eq_self_iff_true, if_true]
    omega
  · by_cases hvy : v = y
    · subst hvy
      simp only [Ne.symm hxy, if_false, eq_self_iff_true, if_true]
      omega
    · simp only [hvx, hvy, if_false]
      omega

theorem count_self_chain {l : List (ParticleID × Coordinate)} {c : Coordinate}
    (hc1 : countPairsAt l c = 1) (v : Coordinate) :
    countPairsAt (removeFirst (moveToFirst l c c) c ++ [(⟨0, 0⟩, c)]) v =
      countPairsAt l v := by
  rw [moveToFirst_self, countPairsAt_push, countPairsAt_removeFirst l c v (by omega)]
  by_cases hv : v = c
  · subst hv
    simp only [eq_self_iff_true, if_true]
    omega
  · simp only [hv, if_false]
    omega

theorem ra_species (sc : SpeciesCache) (c1 c2 : Coordinate) :
    ((sc.remove c1).add c2).species = sc.species := by
  rw [add_species, remove_species]

theorem ra_location (sc : SpeciesCache) (c1 c2 : Coordinate) :
    ((sc.remove c1).add c2).location = sc.location := by
  rw [add_location, remove_location]

theorem cacheEquiv_of_Tracking {c1 c2 : SpeciesCache}
    {l1 l2 : List (ParticleID × Coordinate)} (hs : c1.species = c2.species)
    (hl : c1.location = c2.location) (h1 : c1.cache = .Tracking l1)
    (h2 : c2.cache = .Tracking l2)
    (hc : ∀ v, countPairsAt l1 v = countPairsAt l2 v) : cacheEquiv c1 c2 :=
  ⟨hs, hl, Or.inl ⟨l1, l2, h1, h2, hc⟩⟩

theorem cacheEquiv_of_Count {c1 c2 : SpeciesCache} {n : Nat} (hs : c1.species = c2.species)
    (hl : c1.location = c2.location) (h1 : c1.cache = .Count n)
    (h2 : c2.cache = .Count n) : cacheEquiv c1 c2 :=
  ⟨hs, hl, Or.inr ⟨n, h1, h2⟩⟩

/-- Round trip: a successful move followed by the successful reverse move
restores the voxel array and every per-species coordinate tally. -/
theorem round_trip_aux {s s1 s2 : HCPLatticeSpace} {x y : Coordinate}
    (hinv : claimInvariantP s) (hxy : x ≠ y)
    (h1 : s.move_particle x y = some (.ok (), s1))
    (h2 : s1.move_particle y x = some (.ok (), s2)) :
    s2.voxels = s.voxels ∧ cachesEquiv s2.species_cache s.species_cache := by
  obtain ⟨a, fc, hsrc1, hfca1, hylt, hloc1, hcases1⟩ := move_particle_ok_elim h1
  have hxlt : x < s.voxels.length := lt_length_of_getElem? hsrc1
  have hxgd : s.voxels.getD x none = some a := getD_of_getElem? hsrc1
  have halt : a < s.species_cache.length := lt_length_of_getElem? hfca1
  have hfgd : s.species_cache.getD a emptyCache = fc := getD_of_getElem? hfca1
  have hokA := hinv a halt
  rw [hfgd] at hokA
  obtain ⟨a2, fc2, hsrc2, hfca2, hxlt2, hloc2, hcases2⟩ := move_particle_ok_elim h2
  rcases hcases1 with ⟨hdn, hs1⟩ | ⟨b, tc, hdb, htcb, hs1⟩
  · -- first move onto an empty slot
    subst hs1
    have hv1 : ((s.setCache a (fc.move_to x y)).swapVoxels x y).voxels
        = swapList s.voxels x y := by
      rw [swapVoxels_voxels, setCache_voxels]
    have hc1c : ((s.setCache a (fc.move_to x y)).swapVoxels x y).species_cache
        = s.species_cache.set a (fc.move_to x y) := by
      rw [swapVoxels_species_cache, setCache_species_cache]
    rw [hv1] at hsrc2
    have hg2 : (swapList s.voxels x y).getD y none = some a2 := getD_of_getElem? hsrc2
    rw [getD_swapList_dst hylt] at hg2
    have ha2 : a = a2 := Option.some.inj (hxgd.symm.trans hg2)
    subst ha2
    rw [hc1c] at hfca2
    have hfc2 : fc2 = fc.move_to x y := by
      have hg : (s.species_cache.set a (fc.move_to x y)).getD a emptyCache = fc2 :=
        getD_of_getElem? hfca2
      rw [getD_set_self halt] at hg
      exact hg.symm
    subst hfc2
    rcases hcases2 with ⟨hdn2, hs2⟩ | ⟨b2, tc2, hdb2, htcb2, hs2⟩
    · subst hs2
      constructor
      · rw [swapVoxels_voxels, setCache_voxels, hv1, swapList_swapList_rev hxlt hylt]
      · rw [swapVoxels_species_cache, setCache_species_cache, hc1c, List.set_set]
        refine ⟨by rw [List.length_set], fun i => ?_⟩
        by_cases hia : i = a
        · subst hia
          rw [getD_set_self halt, hfgd]
          cases hfcc : fc.cache with
          | Tracking l =>
            have e1 := move_to_cache_Tracking x y hfcc
            have e2 := move_to_cache_Tracking y x e1
            have holdA : claimTrackOKP s.voxels i l := (claimCacheOKP_Tracking hfcc).mp hokA
            have hcx : countPairsAt l x = 1 := claimTrack_count_one hxlt holdA hxgd
            exact cacheEquiv_of_Tracking
              (by rw [move_to_species, move_to_species])
              (by rw [move_to_location, move_to_location])
              e2 hfcc (fun v => count_mtf_mtf hxy hcx v)
          | Count m =>
            rw [move_to_Count x y hfcc, move_to_Count y x hfcc]
            exact cacheEquiv_refl fc
        · rw [getD_set_ne (fun he => hia he.symm)]
          exact cacheEquiv_refl _
    · rw [hv1, getD_swapList_src hxlt, hdn] at hdb2
      cases hdb2
  · -- first move onto a slot occupied by species b
    subst hs1
    have hblt : b < s.species_cache.length := by
      have hb := lt_length_of_getElem? htcb
      rw [setCache_species_cache, List.length_set] at hb
      exact hb
    have htcgd : tc = (s.species_cache.set a (fc.move_to x y)).getD b emptyCache := by
      have hg : (s.setCache a (fc.move_to x y)).species_cache.getD b emptyCache = tc :=
        getD_of_getElem? htcb
      rw [setCache_species_cache] at hg
      exact hg.symm
    have hv1 : (((s.setCache a (fc.move_to x y)).setCache b
        ((tc.remove y).add x)).swapVoxels x y).voxels = swapList s.voxels x y := by
      rw [swapVoxels_voxels, setCache_voxels, setCache_voxels]
    have hc1c : (((s.setCache a (fc.move_to x y)).setCache b
        ((tc.remove y).add x)).swapVoxels x y).species_cache
        = (s.species_cache.set a (fc.move_to x y)).set b ((tc.remove y).add x) := by
      rw [swapVoxels_species_cache, setCache_species_cache, setCache_species_cache]
    rw [hv1] at hsrc2
    have hg2 : (swapList s.voxels x y).getD y none = some a2 := getD_of_getElem? hsrc2
    rw [getD_swapList_dst hylt] at hg2
    have ha2 : a = a2 := Option.some.inj (hxgd.symm.trans hg2)
    subst ha2
    rw [hc1c] at hfca2
    rcases hcases2 with ⟨hdn2, hs2⟩ | ⟨b2, tc2, hdb2, htcb2, hs2⟩
    · rw [hv1, getD_swapList_src hxlt, hdb] at hdn2
      cases hdn2
    · rw [hv1, getD_swapList_src hxlt, hdb] at hdb2
      have hb2 : b = b2 := Option.some.inj hdb2
      subst hb2
      by_cases hba : b = a
      · -- the substrate is the mover's own species
        subst hba
        have htcfc : tc = fc.move_to x y := by rw [htcgd, getD_set_self halt]
        subst htcfc
        simp only [List.set_set] at hfca2
        have hfc2 : fc2 = ((fc.move_to x y).remove y).add x := by
          have hg : (s.species_cache.set b (((fc.move_to x y).remove y).add x)).getD b
              emptyCache = fc2 := getD_of_getElem? hfca2
          rw [getD_set_self halt] at hg
          exact hg.symm
        subst hfc2
        rw [setCache_species_cache, hc1c] at htcb2
        simp only [List.set_set] at htcb2
        have htc2 : tc2 = (((fc.move_to x y).remove y).add x).move_to y x := by
          have hg : (s.species_cache.set b ((((fc.move_to x y).remove y).add x).move_to
              y x)).getD b emptyCache = tc2 := getD_of_getElem? htcb2
          rw [getD_set_self halt] at hg
          exact hg.symm
        subst htc2
        subst hs2
        constructor
        · rw [swapVoxels_voxels, setCache_voxels, setCache_voxels, hv1,
            swapList_swapList_rev hxlt hylt]
        · rw [swapVoxels_species_cache, setCache_species_cache, setCache_species_cache, hc1c]
          simp only [List.set_set]
          refine ⟨by rw [List.length_set], fun i => ?_⟩
          by_cases hia : i = b
          · subst hia
            rw [getD_set_self halt, hfgd]
            cases hfcc : fc.cache with
            | Tracking l =>
              have e1 := move_to_cache_Tracking x y hfcc
              have e2 := remove_add_Tracking y x e1
              have e3 := move_to_cache_Tracking y x e2
              have e4 := remove_add_Tracking x y e3
              have holdA : claimTrackOKP s.voxels i l := (claimCacheOKP_Tracking hfcc).mp hokA
              have hcx : countPairsAt l x = 1 := claimTrack_count_one hxlt holdA hxgd
              have hcyy : countPairsAt l y = 1 := claimTrack_count_one hylt holdA hdb
              exact cacheEquiv_of_Tracking
                (by rw [ra_species, move_to_species, ra_species, move_to_species])
                (by rw [ra_location, move_to_location, ra_location, move_to_location])
                e4 hfcc (fun v => count_same_chain hxy hcx hcyy v)
            | Count m =>
              have e1 := move_to_cache_Count x y hfcc
              have e2 := remove_add_Count y x e1
              have e3 := move_to_cache_Count y x e2
              have e4 := remove_add_Count x y e3
              have hm : m = countAssigned s.voxels i := (claimCacheOKP_Count hfcc).mp hokA
              have hpos : 0 < countAssigned s.voxels i := countAssigned_pos hxlt hxgd
              have hcollapse : m - 1 + 1 - 1 + 1 = m := by omega
              rw [hcollapse] at e4
              exact cacheEquiv_of_Count
                (by rw [ra_species, move_to_species, ra_species, move_to_species])
                (by rw [ra_location, move_to_location, ra_location, move_to_location])
                e4 hfcc
          · rw [getD_set_ne (fun he => hia he.symm)]
            exact cacheEquiv_refl _
      · -- the substrate is a different species
        have htcB : tc = s.species_cache.getD b emptyCache := by
          rw [htcgd, getD_set_ne (fun he : a = b => hba he.symm)]
        have hokB := hinv b hblt
        have hfc2 : fc2 = fc.move_to x y := by
          have hg : ((s.species_cache.set a (fc.move_to x y)).set b
              ((tc.remove y).add x)).getD a emptyCache = fc2 := getD_of_getElem? hfca2
          rw [getD_set_ne hba, getD_set_self halt] at hg
          exact hg.symm
        subst hfc2
        rw [setCache_species_cache, hc1c] at htcb2
        have htc2 : tc2 = (tc.remove y).add x := by
          have hg : (((s.species_cache.set a (fc.move_to x y)).set b
              ((tc.remove y).add x)).set a ((fc.move_to x y).move_to y x)).getD b
              emptyCache = tc2 := getD_of_getElem? htcb2
          rw [getD_set_ne (fun he : a = b => hba he.symm),
            getD_set_self (by rw [List.length_set]; exact hblt)] at hg
          exact hg.symm
        subst htc2
        subst hs2
        constructor
        · rw [swapVoxels_voxels, setCache_voxels, setCache_voxels, hv1,
            swapList_swapList_rev hxlt hylt]
        · rw [swapVoxels_species_cache, setCache_species_cache, setCache_species_cache, hc1c]
          refine ⟨by simp only [List.length_set], fun i => ?_⟩
          by_cases hia : i = a
          · subst hia
            rw [getD_set_ne hba,
              getD_set_self (by simp only [List.length_set]; exact halt), hfgd]
            cases hfcc : fc.cache with
            | Tracking l =>
              have e1 := move_to_cache_Tracking x y hfcc
              have e2 := move_to_cache_Tracking y x e1
              have holdA : claimTrackOKP s.voxels i l := (claimCacheOKP_Tracking hfcc).mp hokA
              have hcx : countPairsAt l x = 1 := claimTrack_count_one hxlt holdA hxgd
              exact cacheEquiv_of_Tracking
                (by rw [move_to_species, move_to_species])
                (by rw [move_to_location, move_to_location])
                e2 hfcc (fun v => count_mtf_mtf hxy hcx v)
            | Count m =>
              rw [move_to_Count x y hfcc, move_to_Count y x hfcc]
              exact cacheEquiv_refl fc
          · by_cases hib : i = b
            · subst hib
              rw [getD_set_self (by simp only [List.length_set]; exact hblt)]
              cases hscB : (s.species_cache.getD i emptyCache).cache with
              | Tracking lb =>
                have htcT : tc.cache = .Tracking lb := by rw [htcB]; exact hscB
                have e2 := remove_add_Tracking y x htcT
                have e4 := remove_add_Tracking x y e2
                have holdB : claimTrackOKP s.voxels i lb :=
                  (claimCacheOKP_Tracking hscB).mp hokB
                have hcy1 : countPairsAt lb y = 1 := claimTrack_count_one hylt holdB hdb
                exact cacheEquiv_of_Tracking
                  (by rw [ra_species, ra_species, htcB])
                  (by rw [ra_location, ra_location, htcB])
                  e4 hscB (fun v => count_ra_ra hxy (by omega) v)
              | Count m =>
                have htcN : tc.cache = .Count m := by rw [htcB]; exact hscB
                have e2 := remove_add_Count y x htcN
                have e4 := remove_add_Count x y e2
                have hm : m = countAssigned s.voxels i := (claimCacheOKP_Count hscB).mp hokB
                have hpos : 0 < countAssigned s.voxels i := countAssigned_pos hylt hdb
                have hcollapse : m - 1 + 1 - 1 + 1 = m := by omega
                rw [hcollapse] at e4
                exact cacheEquiv_of_Count
                  (by rw [ra_species, ra_species, htcB])
                  (by rw [ra_location, ra_location, htcB])
                  e4 hscB
            · rw [getD_set_ne (fun he => hib he.symm), getD_set_ne (fun he => hia he.symm),
                getD_set_ne (fun he => hib he.symm), getD_set_ne (fun he => hia he.symm)]
              exact cacheEquiv_refl _

theorem count_remove_add_same {l : List (ParticleID × Coordinate)} {c : Coordinate}
    (hc1 : countPairsAt l c = 1) (v : Coordinate) :
    countPairsAt (removeFirst l c ++ [(⟨0, 0⟩, c)]) v = countPairsAt l v := by
  rw [countPairsAt_push, countPairsAt_removeFirst l c v (by omega)]
  by_cases hv : v = c
  · subst hv
    simp only [eq_self_iff_true, if_true]
    omega
  · simp only [hv, if_false]
    omega

/-- The postcondition of a successful move between two distinct occupied
voxels, as the spec states it: the voxel contents swap; the mover's matching
tracking pair is rewritten in place from `src` to `dst`; the substrate species
loses one occupant at `dst` and gains one at `src` (a counting-mode substrate
keeps its total count). -/
def MovePost (s s' : HCPLatticeSpace) (src dst : Coordinate) (a b : SpeciesID) : Prop :=
  s'.voxels.getD dst none = some a ∧ s'.voxels.getD src none = some b ∧
  (∀ l, (s.species_cache.getD a emptyCache).cache = .Tracking l →
    ∃ l1 p l2, l = l1 ++ (p, src) :: l2 ∧
      (s'.species_cache.getD a emptyCache).cache = .Tracking (l1 ++ (p, dst) :: l2)) ∧
  (∀ lb, (s.species_cache.getD b emptyCache).cache = .Tracking lb →
    ∃ lb', (s'.species_cache.getD b emptyCache).cache = .Tracking lb' ∧
      countPairsAt lb' dst + 1 = countPairsAt lb dst ∧
      countPairsAt lb' src = countPairsAt lb src + 1 ∧
      ∀ v, v ≠ src → v ≠ dst → countPairsAt lb' v = countPairsAt lb v) ∧
  (∀ n, (s.species_cache.getD b emptyCache).cache = .Count n →
    (s'.species_cache.getD b emptyCache).cache = .Count n)

theorem move_post_aux {s s' : HCPLatticeSpace} {src dst : Coordinate} {a b : SpeciesID}
    (hinv : claimInvariantP s) (hsrc : s.voxels.getD src none = some a)
    (hdst : s.voxels.getD dst none = some b) (hab : a ≠ b)
    (hok : s.move_particle src dst = some (.ok (), s')) :
    MovePost s s' src dst a b := by
  obtain ⟨a0, fc, hsrc0, hfca, hdlt, hloc, hcases⟩ := move_particle_ok_elim hok
  have hslt : src < s.voxels.length := lt_length_of_getElem? hsrc0
  have ha0 : a0 = a := by
    have hg : s.voxels.getD src none = some a0 := getD_of_getElem? hsrc0
    exact Option.some.inj (hg.symm.trans hsrc)
  subst ha0
  have halt : a0 < s.species_cache.length := lt_length_of_getElem? hfca
  have hfgd : s.species_cache.getD a0 emptyCache = fc := getD_of_getElem? hfca
  have hokA := hinv a0 halt
  rw [hfgd] at hokA
  have hsd : src ≠ dst := fun he => hab (Option.some.inj ((he ▸ hsrc).symm.trans hdst))
  rcases hcases with ⟨hdn, _⟩ | ⟨b0, tc, hdb, htcb, hs'⟩
  · rw [hdn] at hdst
    cases hdst
  · have hb0 : b0 = b := Option.some.inj (hdb.symm.trans hdst)
    subst hb0
    have hba : b0 ≠ a0 := fun he => hab he.symm
    have hblt : b0 < s.species_cache.length := by
      have hb := lt_length_of_getElem? htcb
      rw [setCache_species_cache, List.length_set] at hb
      exact hb
    have htcB : tc = s.species_cache.getD b0 emptyCache := by
      have hg : (s.setCache a0 (fc.move_to src dst)).species_cache.getD b0 emptyCache
          = tc := getD_of_getElem? htcb
      rw [setCache_species_cache, getD_set_ne (fun he : a0 = b0 => hba he.symm)] at hg
      exact hg.symm
    subst hs'
    have hv' : (((s.setCache a0 (fc.move_to src dst)).setCache b0
        ((tc.remove dst).add src)).swapVoxels src dst).voxels
        = swapList s.voxels src dst := by
      rw [swapVoxels_voxels, setCache_voxels, setCache_voxels]
    have hcac : (((s.setCache a0 (fc.move_to src dst)).setCache b0
        ((tc.remove dst).add src)).swapVoxels src dst).species_cache
        = (s.species_cache.set a0 (fc.move_to src dst)).set b0 ((tc.remove dst).add src) := by
      rw [swapVoxels_species_cache, setCache_species_cache, setCache_species_cache]
    refine ⟨?_, ?_, ?_, ?_, ?_⟩
    · rw [hv', getD_swapList_dst hdlt, hsrc]
    · rw [hv', getD_swapList_src hslt, hdst]
    · intro l hl
      rw [hfgd] at hl
      obtain ⟨l1, p, l2, hdec, _, hmv⟩ := moveToFirst_decomp l src dst
        (claimTrack_count_one hslt ((claimCacheOKP_Tracking hl).mp hokA) hsrc)
      refine ⟨l1, p, l2, hdec, ?_⟩
      rw [hcac, getD_set_ne hba, getD_set_self halt, move_to_cache_Tracking src dst hl, hmv]
    · intro lb hlb
      rw [htcB] at *
      have hlb' : (s.species_cache.getD b0 emptyCache).cache = .Tracking lb := hlb
      have e2 := remove_add_Tracking dst src hlb'
      have holdB : claimTrackOKP s.voxels b0 lb :=
        (claimCacheOKP_Tracking hlb').mp (hinv b0 hblt)
      have hb1 : countPairsAt lb dst = 1 := claimTrack_count_one hdlt holdB hdst
      refine ⟨removeFirst lb dst ++ [(⟨0, 0⟩, src)], ?_, ?_, ?_, ?_⟩
      · rw [hcac, getD_set_self (by rw [List.length_set]; exact hblt)]
        exact e2
      · rw [countPairsAt_push, countPairsAt_removeFirst lb dst dst (by omega)]
        simp only [eq_self_iff_true, if_true, hsd, if_false]
        have hz : ¬ dst = src := Ne.symm hsd
        simp only [hz, if_false]
        omega
      · rw [countPairsAt_push, countPairsAt_removeFirst lb dst src (by omega)]
        simp only [eq_self_iff_true, if_true, hsd, if_false]
        omega
      · intro v hvs hvd
        rw [countPairsAt_push, countPairsAt_removeFirst lb dst v (by omega)]
        simp only [hvs, hvd, if_false]
        omega
    · intro n hn
      rw [htcB] at *
      have hn' : (s.species_cache.getD b0 emptyCache).cache = .Count n := hn
      have e2 := remove_add_Count dst src hn'
      have hm : n = countAssigned s.voxels b0 := (claimCacheOKP_Count hn').mp (hinv b0 hblt)
      have hpos : 0 < countAssigned s.voxels b0 := countAssigned_pos hdlt hdst
      have hcol : n - 1 + 1 = n := by omega
      rw [hcol] at e2
      rw [hcac, getD_set_self (by rw [List.length_set]; exact hblt)]
      exact e2

/-- Complete description of `move_particle c c`: the voxel array never
changes; the call succeeds exactly when `c` holds a species whose required
substrate is itself, and then the index entries keep their per-coordinate
tallies (though a tracking pair is re-appended with the placeholder id);
every other case is an error that leaves the state untouched. -/
def SelfMovePost (s : HCPLatticeSpace) (c : Coordinate) : Prop :=
  ∃ r s', s.move_particle c c = some (r, s') ∧ s'.voxels = s.voxels ∧
    ((∃ i, s.voxels.getD c none = some i ∧
        (s.species_cache.getD i emptyCache).location = some i) →
      r = .ok () ∧ cachesEquiv s'.species_cache s.species_cache) ∧
    ((¬ ∃ i, s.voxels.getD c none = some i ∧
        (s.species_cache.getD i emptyCache).location = some i) →
      (∃ e, r = .error e) ∧ s' = s)

theorem self_move_aux {s : HCPLatticeSpace} (c : Coordinate)
    (hinv : claimInvariantP s) (hwf : wfIdsB s = true) : SelfMovePost s c := by
  by_cases hlt : c < s.voxels.length
  · cases hocc : s.voxels.getD c none with
    | none =>
      have hget : s.voxels[c]? = some none := by
        have hg := getElem?_eq_some_getD none hlt
        rw [hocc] at hg
        exact hg
      refine ⟨.error (.ParticleNotFound c), s, move_particle_pnf c hget, rfl, ?_, ?_⟩
      · rintro ⟨i, hi, -⟩
        rw [hocc] at hi
        cases hi
      · intro _
        exact ⟨⟨_, rfl⟩, rfl⟩
    | some i =>
      have hget : s.voxels[c]? = some (some i) := by
        have hg := getElem?_eq_some_getD none hlt
        rw [hocc] at hg
        exact hg
      have hilt : i < s.species_cache.length := by
        have hw := (List.all_eq_true.mp hwf) (some i) (List.getElem?_mem hget)
        simpa using hw
      have hgetc : s.species_cache[i]? = some (s.species_cache.getD i emptyCache) :=
        getElem?_eq_some_getD emptyCache hilt
      by_cases hloc : (s.species_cache.getD i emptyCache).location = some i
      · have hl2 : i < (s.species_cache.set i
            ((s.species_cache.getD i emptyCache).move_to c c)).length := by
          rw [List.length_set]
          exact hilt
        have htc : (s.setCache i ((s.species_cache.getD i emptyCache).move_to c
            c)).species_cache[i]? = some ((s.species_cache.getD i emptyCache).move_to c c) := by
          rw [setCache_species_cache]
          have hg := getElem?_eq_some_getD emptyCache hl2
          rw [getD_set_self hilt] at hg
          exact hg
        have hmove := move_particle_ok_some hget hlt hgetc hloc hocc htc
        refine ⟨.ok (), _, hmove, ?_, ?_, ?_⟩
        · rw [swapVoxels_voxels, setCache_voxels, setCache_voxels, swapList_self hlt]
        · intro _
          refine ⟨rfl, ?_⟩
          rw [swapVoxels_species_cache, setCache_species_cache, setCache_species_cache]
          simp only [List.set_set]
          refine ⟨by rw [List.length_set], fun j => ?_⟩
          by_cases hji : j = i
          · subst hji
            rw [getD_set_self hilt]
            cases hfcc : (s.species_cache.getD j emptyCache).cache with
            | Tracking l =>
              have hmt : ((s.species_cache.getD j emptyCache).move_to c c).cache
                  = .Tracking l := by
                rw [move_to_cache_Tracking c c hfcc, moveToFirst_self]
              have e4 := remove_add_Tracking c c hmt
              have holdI : claimTrackOKP s.voxels j l :=
                (claimCacheOKP_Tracking hfcc).mp (hinv j hilt)
              have hc1 : countPairsAt l c = 1 := claimTrack_count_one hlt holdI hocc
              exact cacheEquiv_of_Tracking
                (by rw [ra_species, move_to_species])
                (by rw [ra_location, move_to_location])
                e4 hfcc (fun v => count_remove_add_same hc1 v)
            | Count n =>
              have hmt := move_to_cache_Count c c hfcc
              have e4 := remove_add_Count c c hmt
              have hm : n = countAssigned s.voxels j :=
                (claimCacheOKP_Count hfcc).mp (hinv j hilt)
              have hpos : 0 < countAssigned s.voxels j := countAssigned_pos hlt hocc
              have hcol : n - 1 + 1 = n := by omega
              rw [hcol] at e4
              exact cacheEquiv_of_Count
                (by rw [ra_species, move_to_species])
                (by rw [ra_location, move_to_location])
                e4 hfcc
          · rw [getD_set_ne (fun he => hji he.symm)]
            exact cacheEquiv_refl _
        · intro hno
          exact absurd ⟨i, hocc, hloc⟩ hno
      · have hne : (s.species_cache.getD i emptyCache).location ≠ s.voxels.getD c none := by
          rw [hocc]
          exact hloc
        refine ⟨.error (.InvalidLocation c c), s,
          move_particle_il hget hlt hgetc hne, rfl, ?_, ?_⟩
        · rintro ⟨j, hj, hjl⟩
          rw [hocc] at hj
          have hji : i = j := Option.some.inj hj
          rw [← hji] at hjl
          exact absurd hjl hloc
        · intro _
          exact ⟨⟨_, rfl⟩, rfl⟩
  · push_neg at hlt
    refine ⟨.error (.OutOfRange c), s, move_particle_oor_src c hlt, rfl, ?_, ?_⟩
    · rintro ⟨i, hi, -⟩
      rw [List.getD_eq_getElem?_getD, List.getElem?_eq_none hlt] at hi
      cases hi
    · intro _
      exact ⟨⟨_, rfl⟩, rfl⟩

/-! ## States reachable through the public interface alone -/

theorem new_voxels_getElem (sz : HCPLatticeSize) (c : Coordinate) :
    (HCPLatticeSpace.new sz).voxels[c]? =
      if c < sz.row * sz.col * sz.layer then some none else none := by
  unfold HCPLatticeSpace.new
  exact List.getElem?_replicate

theorem new_voxels_length (sz : HCPLatticeSize) :
    (HCPLatticeSpace.new sz).voxels.length = sz.row * sz.col * sz.layer := by
  unfold HCPLatticeSpace.new
  exact List.length_replicate ..

theorem move_on_new (sz : HCPLatticeSize) (a b : Coordinate) :
    ∃ e, (HCPLatticeSpace.new sz).move_particle a b =
      some (.error e, HCPLatticeSpace.new sz) := by
  cases Nat.lt_or_ge a (sz.row * sz.col * sz.layer) with
  | inl h =>
    have hget : (HCPLatticeSpace.new sz).voxels[a]? = some none := by
      rw [new_voxels_getElem, if_pos h]
    exact ⟨_, move_particle_pnf b hget⟩
  | inr h =>
    have hle : (HCPLatticeSpace.new sz).voxels.length ≤ a := by
      rw [new_voxels_length]
      exact h
    exact ⟨_, move_particle_oor_src b hle⟩

theorem move_on_new_cases (sz : HCPLatticeSize) (a b : Coordinate) :
    (HCPLatticeSpace.new sz).move_particle a b
        = some (.error (.OutOfRange a), HCPLatticeSpace.new sz) ∨
      (HCPLatticeSpace.new sz).move_particle a b
        = some (.error (.ParticleNotFound a), HCPLatticeSpace.new sz) := by
  cases Nat.lt_or_ge a (sz.row * sz.col * sz.layer) with
  | inl h =>
    have hget : (HCPLatticeSpace.new sz).voxels[a]? = some none := by
      rw [new_voxels_getElem, if_pos h]
    exact Or.inr (move_particle_pnf b hget)
  | inr h =>
    have hle : (HCPLatticeSpace.new sz).voxels.length ≤ a := by
      rw [new_voxels_length]
      exact h
    exact Or.inl (move_particle_oor_src b hle)

theorem stepMove_new (sz : HCPLatticeSize) (m : Coordinate × Coordinate) :
    stepMove (HCPLatticeSpace.new sz) m = HCPLatticeSpace.new sz := by
  obtain ⟨e, he⟩ := move_on_new sz m.1 m.2
  unfold stepMove
  rw [he]

theorem foldl_stepMove_new (sz : HCPLatticeSize) :
    ∀ ms : List (Coordinate × Coordinate),
      ms.foldl stepMove (HCPLatticeSpace.new sz) = HCPLatticeSpace.new sz
  | [] => rfl
  | m :: rest => by
    rw [List.foldl_cons, stepMove_new, foldl_stepMove_new sz rest]

/-! ## Concrete states used by counterexamples and witnesses -/

/-- The spec's own scenario: a 2x2x1 lattice, tracking species "A" (substrate
"Vacant") on voxel 0, counting species "Vacant" on voxels 1 to 3. -/
def exW : HCPLatticeSpace :=
  { size := ⟨2, 2, 1⟩
    voxels := [some 0, some 1, some 1, some 1]
    species_cache :=
      [{ species := ⟨"A"⟩, location := some 1, cache := .Tracking [(⟨7, 7⟩, 0)] },
       { species := ⟨"Vacant"⟩, location := none, cache := .Count 3 }] }

/-- The state after `MoveParticle(0, 1)` on `exW`. -/
def exWpost : HCPLatticeSpace :=
  { size := ⟨2, 2, 1⟩
    voxels := [some 1, some 0, some 1, some 1]
    species_cache :=
      [{ species := ⟨"A"⟩, location := some 1, cache := .Tracking [(⟨7, 7⟩, 1)] },
       { species := ⟨"Vacant"⟩, location := none, cache := .Count 3 }] }

/-- A state satisfying the claim's literal biconditional invariant in which
species 0's tracking list holds two stray pairs at voxel 1 (allowed by the
biconditional, since voxel 1 belongs to species 1 and 2 is not 1). -/
def exC1 : HCPLatticeSpace :=
  { size := ⟨2, 1, 1⟩
    voxels := [some 0, some 1]
    species_cache :=
      [{ species := ⟨"A"⟩, location := some 1,
         cache := .Tracking [(⟨1, 1⟩, 0), (⟨2, 2⟩, 1), (⟨3, 3⟩, 1)] },
       { species := ⟨"B"⟩, location := none, cache := .Tracking [(⟨4, 4⟩, 1)] }] }

/-- The state after `MoveParticle(0, 1)` on `exC1`: species 0 now owns voxel 1
but holds three pairs there, breaking the biconditional. -/
def exC1post : HCPLatticeSpace :=
  { size := ⟨2, 1, 1⟩
    voxels := [some 1, some 0]
    species_cache :=
      [{ species := ⟨"A"⟩, location := some 1,
         cache := .Tracking [(⟨1, 1⟩, 1), (⟨2, 2⟩, 1), (⟨3, 3⟩, 1)] },
       { species := ⟨"B"⟩, location := none, cache := .Tracking [(⟨0, 0⟩, 0)] }] }

/-- A 1-voxel lattice with the voxel unoccupied and no species registered. -/
def exE : HCPLatticeSpace :=
  { size := ⟨1, 1, 1⟩
    voxels := [none]
    species_cache := [] }

/-- One self-substrate tracking species on voxel 0 of a 2-voxel lattice. -/
def exS8 : HCPLatticeSpace :=
  { size := ⟨2, 1, 1⟩
    voxels := [some 0, none]
    species_cache :=
      [{ species := ⟨"A"⟩, location := some 0, cache := .Tracking [(⟨5, 5⟩, 0)] }] }

/-- The state after `MoveParticle(0, 0)` on `exS8`: the tracked pair has been
re-appended with the placeholder particle id. -/
def exS8post : HCPLatticeSpace :=
  { size := ⟨2, 1, 1⟩
    voxels := [some 0, none]
    species_cache :=
      [{ species := ⟨"A"⟩, location := some 0, cache := .Tracking [(⟨0, 0⟩, 0)] }] }

/-! ## Claim theorems -/

/-- C1 (counterexample): the biconditional invariant exactly as the claim
states it is not preserved by a successful `MoveParticle`: `exC1` satisfies
it, the move `(0, 1)` succeeds, and the resulting state violates it (species
0's list now holds three pairs at the voxel assigned to it). -/
theorem c1_counterexample :
    claimInvariantB exC1 = true ∧ runMoves exC1 [(0, 1)] = some exC1post ∧
      claimInvariantB exC1post = false :=
  ⟨by decide, by decide, by decide⟩

/-- C1 (amended): strengthening the invariant to its exact-count form — every
tracking species holds exactly one pair at each voxel assigned to it and none
at any other in-range voxel; every counting species' count equals the number
of voxels assigned to it — makes it inductive: it is preserved by every
sequence of successful `MoveParticle` operations, and it implies the claim's
biconditional form at every reachable state. -/
theorem c1_invariant_preserved (s s' : HCPLatticeSpace)
    (ms : List (Coordinate × Coordinate)) (hinv : invariantB s = true)
    (h : runMoves s ms = some s') :
    invariantB s' = true ∧ claimInvariantB s' = true := by
  have hp := invariantP_runMoves ms s s' ((invariantB_iff s).mp hinv) h
  exact ⟨(invariantB_iff s').mpr hp, (claimInvariantB_iff s').mpr (invariantP_imp_claim hp)⟩

theorem c1_invariant_preserved_witness :
    invariantB exW = true ∧ runMoves exW [(0, 1)] = some exWpost ∧
      (invariantB exWpost = true ∧ claimInvariantB exWpost = true) :=
  ⟨by decide, by decide, c1_invariant_preserved exW exWpost [(0, 1)] (by decide) (by decide)⟩

/-- C2: whenever `move_particle` returns an error, the returned state carries
the voxel array and species index of the entry state, byte for byte: all
three validation failures precede every mutation. -/
theorem c2_error_atomicity (s s' : HCPLatticeSpace) (src dst : Coordinate) (e : Error)
    (h : s.move_particle src dst = some (.error e, s')) :
    s'.voxels = s.voxels ∧ s'.species_cache = s.species_cache := by
  have hs := move_particle_err_elim h
  exact ⟨by rw [hs], by rw [hs]⟩

theorem c2_error_atomicity_witness :
    exW.move_particle 1 0 = some (.error (.InvalidLocation 1 0), exW) ∧
      (exW.voxels = exW.voxels ∧ exW.species_cache = exW.species_cache) :=
  ⟨rfl, c2_error_atomicity exW exW 1 0 (.InvalidLocation 1 0) rfl⟩

/-- C3: with both coordinates in range and `src` occupied by species `a`
(whose cache entry exists), the move fails with `InvalidLocation src dst` if
and only if the occupant of `dst` — `none` included, treated as a first-class
matchable value — differs from `a`'s declared required substrate. -/
theorem c3_substrate_match (s : HCPLatticeSpace) (src dst : Coordinate) (a : SpeciesID)
    (hsrc : s.voxels.getD src none = some a) (hdlt : dst < s.voxels.length)
    (halt : a < s.species_cache.length) :
    s.move_particle src dst = some (.error (.InvalidLocation src dst), s) ↔
      (s.species_cache.getD a emptyCache).location ≠ s.voxels.getD dst none := by
  have hget : s.voxels[src]? = some (some a) := by
    have hg := getElem?_eq_some_getD none (lt_of_getD_eq_some hsrc)
    rw [hsrc] at hg
    exact hg
  have hgetc : s.species_cache[a]? = some (s.species_cache.getD a emptyCache) :=
    getElem?_eq_some_getD emptyCache halt
  constructor
  · intro h
    by_contra hmatch
    rcases move_particle_match_ok_or_panic hget hdlt hgetc hmatch with hn | ⟨s', hs'⟩
    · rw [h] at hn
      cases hn
    · rw [h] at hs'
      simp at hs'
  · intro hne
    exact move_particle_il hget hdlt hgetc hne

theorem c3_substrate_match_witness :
    exW.voxels.getD 1 none = some 1 ∧ 0 < exW.voxels.length ∧
      1 < exW.species_cache.length ∧
      (exW.move_particle 1 0 = some (.error (.InvalidLocation 1 0), exW) ↔
        (exW.species_cache.getD 1 emptyCache).location ≠ exW.voxels.getD 0 none) :=
  ⟨rfl, by decide, by decide,
    c3_substrate_match exW 1 0 1 rfl (by decide) (by decide)⟩

/-- C4 (counterexample): the claim's "regardless of the other argument" fails:
on a 1-voxel lattice, `MoveParticle(0, 1)` takes the out-of-range coordinate 1
but returns `ParticleNotFound 0`, because the occupancy check of `from`
precedes the bounds check of `to`. -/
theorem c4_counterexample :
    exE.size.row * exE.size.col * exE.size.layer ≤ 1 ∧
      exE.move_particle 0 1 = some (.error (.ParticleNotFound 0), exE) ∧
      (Error.ParticleNotFound 0 ≠ Error.OutOfRange 1) :=
  ⟨by decide, rfl, by decide⟩

/-- C4 (amended): a coordinate `c ≥ row*col*layer` is rejected with
`OutOfRange c` and no mutation by `get_species_id_at`, by `MoveParticle` with
`c` as its `from` argument (regardless of the other argument), and by
`MoveParticle` with `c` as its `to` argument provided `from` is in range and
occupied — otherwise the `from`-side error takes precedence. -/
theorem c4_out_of_range (s : HCPLatticeSpace) (c other : Coordinate)
    (hsize : s.voxels.length = s.size.row * s.size.col * s.size.layer)
    (hc : s.size.row * s.size.col * s.size.layer ≤ c) :
    s.get_species_id_at c = .error (.OutOfRange c) ∧
    s.move_particle c other = some (.error (.OutOfRange c), s) ∧
    (∀ a, s.voxels.getD other none = some a →
      s.move_particle other c = some (.error (.OutOfRange c), s)) := by
  have hle : s.voxels.length ≤ c := by
    rw [hsize]
    exact hc
  refine ⟨get_species_id_at_oor hle, move_particle_oor_src other hle, fun a ha => ?_⟩
  have hget : s.voxels[other]? = some (some a) := by
    have hg := getElem?_eq_some_getD none (lt_of_getD_eq_some ha)
    rw [ha] at hg
    exact hg
  exact move_particle_oor_dst hget hle

theorem c4_out_of_range_witness :
    exW.voxels.length = exW.size.row * exW.size.col * exW.size.layer ∧
      exW.size.row * exW.size.col * exW.size.layer ≤ 7 ∧
      (exW.get_species_id_at 7 = .error (.OutOfRange 7) ∧
        exW.move_particle 7 0 = some (.error (.OutOfRange 7), exW) ∧
        (∀ a, exW.voxels.getD 0 none = some a →
          exW.move_particle 0 7 = some (.error (.OutOfRange 7), exW))) :=
  ⟨by decide, by decide, c4_out_of_range exW 7 0 (by decide) (by decide)⟩

/-- C5: after a successful move from a voxel holding species `a` onto a voxel
holding its substrate species `b` (a distinct species), the destination holds
`a` and the source holds `b`; the mover's tracking pair that pointed at `src`
now points at `dst` (same pair, same particle id, same position); and `b`'s
bookkeeping records one fewer occupant at `dst` and one more at `src`, so a
counting-mode `b` keeps its total count. -/
theorem c5_move_postcondition (s s' : HCPLatticeSpace) (src dst : Coordinate)
    (a b : SpeciesID) (hinv : claimInvariantB s = true)
    (hsrc : s.voxels.getD src none = some a) (hdst : s.voxels.getD dst none = some b)
    (hab : a ≠ b) (hok : s.move_particle src dst = some (.ok (), s')) :
    MovePost s s' src dst a b :=
  move_post_aux ((claimInvariantB_iff s).mp hinv) hsrc hdst hab hok

theorem c5_move_postcondition_witness :
    claimInvariantB exW = true ∧ exW.voxels.getD 0 none = some 0 ∧
      exW.voxels.getD 1 none = some 1 ∧ (0 : SpeciesID) ≠ 1 ∧
      exW.move_particle 0 1 = some (.ok (), exWpost) ∧ MovePost exW exWpost 0 1 0 1 :=
  ⟨by decide, rfl, rfl, by decide, rfl,
    c5_move_postcondition exW exWpost 0 1 0 1 (by decide) rfl rfl (by decide) rfl⟩

/-- C6: a successful move never changes the number of occupied voxels — the
final raw-array update is a swap of two slots. -/
theorem c6_occupancy_preserved (s s' : HCPLatticeSpace) (src dst : Coordinate)
    (h : s.move_particle src dst = some (.ok (), s')) :
    countOccupied s'.voxels = countOccupied s.voxels := by
  obtain ⟨hv, hslt, hdlt⟩ := move_ok_voxels h
  rw [hv]
  exact countOccupied_swapList hslt hdlt

theorem c6_occupancy_preserved_witness :
    exW.move_particle 0 1 = some (.ok (), exWpost) ∧
      countOccupied exWpost.voxels = countOccupied exW.voxels :=
  ⟨rfl, c6_occupancy_preserved exW exWpost 0 1 rfl⟩

/-- C7: starting from a state satisfying the spec's invariant, a successful
move from `x` to `y` (distinct) followed by a successful move back restores
the voxel array exactly, and restores every species index entry up to the
multiset of coordinates in its tracking list (and its count in counting
mode); pair order and the placeholder particle ids written by `add` are not
restored, which the spec's "tracking-list coordinates" reading does not
require. -/
theorem c7_round_trip (s s1 s2 : HCPLatticeSpace) (x y : Coordinate)
    (hinv : claimInvariantB s = true) (hxy : x ≠ y)
    (h1 : s.move_particle x y = some (.ok (), s1))
    (h2 : s1.move_particle y x = some (.ok (), s2)) :
    s2.voxels = s.voxels ∧ cachesEquiv s2.species_cache s.species_cache :=
  round_trip_aux ((claimInvariantB_iff s).mp hinv) hxy h1 h2

theorem c7_round_trip_witness :
    claimInvariantB exW = true ∧ (0 : Coordinate) ≠ 1 ∧
      exW.move_particle 0 1 = some (.ok (), exWpost) ∧
      exWpost.move_particle 1 0 = some (.ok (), exW) ∧
      (exW.voxels = exW.voxels ∧ cachesEquiv exW.species_cache exW.species_cache) :=
  ⟨by decide, by decide, rfl, rfl,
    c7_round_trip exW exWpost exW 0 1 (by decide) (by decide) rfl rfl⟩

/-- C8 (counterexample): `MoveParticle(c, c)` has no single behavior holding
for every coordinate: on `exS8` the self-move at 0 succeeds but rewrites the
species index entry (the tracked pair is re-appended with the placeholder
particle id), and the self-move at 1 is rejected — so neither
"succeeds leaving array and indices unchanged" nor "rejected" holds
uniformly. -/
theorem c8_counterexample :
    exS8.move_particle 0 0 = some (.ok (), exS8post) ∧
      exS8post.species_cache ≠ exS8.species_cache ∧
      exS8.move_particle 1 1 = some (.error (.ParticleNotFound 1), exS8) :=
  ⟨rfl, by decide, rfl⟩

/-- C8 (amended): for every coordinate `c`, `MoveParticle(c, c)` leaves the
voxel array unchanged; it succeeds exactly when `c` is in range and occupied
by a species whose required substrate is itself, in which case every index
entry keeps its species, substrate, mode, coordinate tallies and count (a
tracking pair may be re-appended with the placeholder particle id); in every
other case it returns an error with the whole state unchanged. -/
theorem c8_self_move (s : HCPLatticeSpace) (c : Coordinate)
    (hinv : claimInvariantB s = true) (hwf : wfIdsB s = true) : SelfMovePost s c :=
  self_move_aux c ((claimInvariantB_iff s).mp hinv) hwf

theorem c8_self_move_witness :
    claimInvariantB exS8 = true ∧ wfIdsB exS8 = true ∧ SelfMovePost exS8 0 :=
  ⟨by decide, by decide, c8_self_move exS8 0 (by decide) (by decide)⟩

/-- C9: under the spec's invariant, whenever a voxel is occupied by a
counting-mode species, that species' count is positive, so the decrement in
`SpeciesCache::remove` is well-defined (`n - 1 + 1 = n`) and cannot
underflow; a zero count at an occupied voxel would violate the invariant
rather than be a reachable case. -/
theorem c9_counting_remove_safe (s : HCPLatticeSpace) (dst : Coordinate)
    (i : SpeciesID) (n : Nat) (hinv : claimInvariantB s = true)
    (hi : i < s.species_cache.length) (hdst : s.voxels.getD dst none = some i)
    (hc : (s.species_cache.getD i emptyCache).cache = .Count n) :
    0 < n ∧ ((s.species_cache.getD i emptyCache).remove dst).cache = .Count (n - 1) ∧
      n - 1 + 1 = n := by
  have hn := (claimCacheOKP_Count hc).mp (((claimInvariantB_iff s).mp hinv) i hi)
  have hpos := countAssigned_pos (lt_of_getD_eq_some hdst) hdst
  have h0 : 0 < n := by omega
  exact ⟨h0, by rw [remove_Count dst hc], by omega⟩

theorem c9_counting_remove_safe_witness :
    claimInvariantB exW = true ∧ 1 < exW.species_cache.length ∧
      exW.voxels.getD 1 none = some 1 ∧
      (exW.species_cache.getD 1 emptyCache).cache = .Count 3 ∧
      (0 < 3 ∧ ((exW.species_cache.getD 1 emptyCache).remove 1).cache = .Count (3 - 1) ∧
        3 - 1 + 1 = 3) :=
  ⟨by decide, by decide, rfl, rfl,
    c9_counting_remove_safe exW 1 1 3 (by decide) (by decide) rfl rfl⟩

/-- C10: the public interface alone (construction plus any sequence of
`move_particle` calls, each keeping whatever state the call returns) can only
produce the empty state: all voxels `none` and no species registered; in that
state every `move_particle` call fails with `OutOfRange` (out-of-range
`from`) or `ParticleNotFound` (in-range, unoccupied `from`) leaving the
state unchanged, and `find_particle` finds nothing. -/
theorem c10_reachable_empty (r c l : Nat) (ms : List (Coordinate × Coordinate)) :
    (ms.foldl stepMove (HCPLatticeSpace.new ⟨r, c, l⟩)).voxels
        = List.replicate (r * c * l) none ∧
      (ms.foldl stepMove (HCPLatticeSpace.new ⟨r, c, l⟩)).species_cache = [] ∧
      (∀ a b, (ms.foldl stepMove (HCPLatticeSpace.new ⟨r, c, l⟩)).move_particle a b
          = some (.error (.OutOfRange a),
              ms.foldl stepMove (HCPLatticeSpace.new ⟨r, c, l⟩)) ∨
        (ms.foldl stepMove (HCPLatticeSpace.new ⟨r, c, l⟩)).move_particle a b
          = some (.error (.ParticleNotFound a),
              ms.foldl stepMove (HCPLatticeSpace.new ⟨r, c, l⟩))) ∧
      (∀ pid, (ms.foldl stepMove (HCPLatticeSpace.new ⟨r, c, l⟩)).find_particle pid
          = none) := by
  rw [foldl_stepMove_new]
  exact ⟨rfl, rfl, fun a b => move_on_new_cases _ a b, fun _ => rfl⟩
